import Mathlib

/-!
Verification of the player/account web application (src/app.py) against its
natural-language specification.  The handlers are shallowly embedded: form
data is a finite map from field names to strings, the database is a record
of lists of rows, fallible handler code returns `Except`, and Python's
`int(...)` string conversion is modelled character by character.
-/

/-- ASCII whitespace characters stripped by Python's `int(str)` conversion
and by `str.strip()`. -/
def isPyWs (c : Char) : Bool :=
  c = ' ' || c = '\t' || c = '\n' || c = '\r' || c = '\x0b' || c = '\x0c'

/-- Numeric value of a decimal digit character. -/
def digitVal (c : Char) : Nat := c.toNat - '0'.toNat

/-- Continuation of Python's base-10 digit scanning after the first digit:
digits accumulate into `acc`; a single underscore is allowed only between
two digits (as in CPython's grammar for integer literals in `int`). -/
def pyDigitsRest : List Char → Nat → Option Nat
  | [], acc => some acc
  | c :: cs, acc =>
    if c = '_' then
      match cs with
      | c2 :: cs2 =>
        if c2.isDigit then pyDigitsRest cs2 (acc * 10 + digitVal c2) else none
      | [] => none
    else if c.isDigit then pyDigitsRest cs (acc * 10 + digitVal c) else none

/-- The unsigned-number part of Python's `int(str)`: at least one digit,
then digits with optional single separating underscores. -/
def pyNatPart : List Char → Option Nat
  | [] => none
  | c :: cs => if c.isDigit then pyDigitsRest cs (digitVal c) else none

/-- Remove leading and trailing Python whitespace. -/
def stripWs (l : List Char) : List Char :=
  ((l.dropWhile isPyWs).reverse.dropWhile isPyWs).reverse

/-- Python's `int(str)` on a character list: strip surrounding whitespace,
an optional sign, then an underscore-separated digit string. -/
def pyIntOfChars (cs : List Char) : Option Int :=
  match stripWs cs with
  | [] => none
  | c :: rest =>
    if c = '+' then (pyNatPart rest).map Int.ofNat
    else if c = '-' then (pyNatPart rest).map (fun n => -(Int.ofNat n))
    else (pyNatPart (c :: rest)).map Int.ofNat

/-- Python's `int(str)` conversion, `none` when it raises `ValueError`. -/
def pyIntOfString (s : String) : Option Int := pyIntOfChars s.data

/-- Python's `str.strip()` restricted to ASCII whitespace. -/
def pyStrip (s : String) : String := ⟨stripWs s.data⟩

/-- The distinct validation rules raised by `player_update_save`. -/
inductive Rule where
  | mustBeInteger
  | isRequired
  | mustBeOneOf
deriving DecidableEq, Repr

/-- Errors a request handler can raise: a Flask `BadRequestKeyError` from
`request.form[...]` on a missing key, or a `ValueError` raised by one of
the validators, naming the offending field. -/
inductive HandlerErr where
  | badRequestKey (field : String)
  | validation (field : String) (rule : Rule)
deriving DecidableEq, Repr

/-- `validate_integer` from `player_update_save`: `int(value)`, turning a
`ValueError` into the message "`field` must be an integer.". -/
def validate_integer (value : String) (field : String) : Except HandlerErr Int :=
  match pyIntOfString value with
  | some n => .ok n
  | none => .error (.validation field .mustBeInteger)

example : pyIntOfString "50" = some 50 := by decide
example : pyIntOfString " -7 " = some (-7) := by decide
example : pyIntOfString "1_000" = some 1000 := by decide
example : pyIntOfString "1__0" = none := by decide
example : pyIntOfString "_1" = none := by decide
example : pyIntOfString "1_" = none := by decide
example : pyIntOfString "" = none := by decide
example : pyIntOfString " " = none := by decide
example : pyIntOfString "+42" = some 42 := by decide
example : pyIntOfString "4 2" = none := by decide
example : pyIntOfString "abc" = none := by decide

/-- A wall-clock instant at the server, as produced by `datetime.now()`.
`micro` holds the sub-second part, which `strftime("%Y-%m-%d %H:%M:%S")`
discards. -/
structure DateTime where
  year : Nat
  month : Nat
  day : Nat
  hour : Nat
  minute : Nat
  second : Nat
  micro : Nat
deriving DecidableEq, Repr

/-- Zero-pad a number to two characters, as `strftime` does for
`%m %d %H %M %S`. -/
def pad2 (n : Nat) : List Char :=
  if n < 10 then '0' :: (toString n).data else (toString n).data

/-- Zero-pad a number to four characters, as `strftime` does for `%Y`. -/
def pad4 (n : Nat) : List Char :=
  List.replicate (4 - (toString n).data.length) '0' ++ (toString n).data

/-- `datetime.now().strftime("%Y-%m-%d %H:%M:%S")`: the second-precision
timestamp stamped onto every inserted snapshot row. -/
def formatDateTime (t : DateTime) : String :=
  ⟨pad4 t.year ++ '-' :: pad2 t.month ++ '-' :: pad2 t.day ++
    ' ' :: pad2 t.hour ++ ':' :: pad2 t.minute ++ ':' :: pad2 t.second⟩

/-- A Python value passed to `validate_not_null`: in `player_update_save`
every such value is either an `int` returned by `validate_integer` or a
string taken from the form (or computed by `strftime`). -/
inductive Value where
  | int (n : Int)
  | str (s : String)
deriving DecidableEq, Repr

/-- `validate_not_null` from `player_update_save`: fails with
"`field` is required." when the value is a string that is empty after
stripping; an `int` value is never `None` and never a string, so it
always passes. -/
def validate_not_null (value : Value) (field : String) : Except HandlerErr Unit :=
  match value with
  | .int _ => .ok ()
  | .str s => if pyStrip s = "" then .error (.validation field .isRequired) else .ok ()

/-- A submitted form: `request.form`, a finite map from field name to the
submitted string. -/
structure Form where
  entries : List (String × String)
deriving DecidableEq, Repr

/-- Form lookup (first binding wins, as in a MultiDict). -/
def Form.get? (form : Form) (k : String) : Option String :=
  (form.entries.find? (fun e => e.1 == k)).map (fun e => e.2)

/-- `request.form[k]`: raises Flask's `BadRequestKeyError` when `k` is
absent from the form. -/
def fetchRaw (form : Form) (k : String) : Except HandlerErr String :=
  match form.get? k with
  | some s => .ok s
  | none => .error (.badRequestKey k)

/-- `validate_integer(request.form[k], k)`. -/
def fetchInt (form : Form) (k : String) : Except HandlerErr Int := do
  let s ← fetchRaw form k
  validate_integer s k

/-- A sequence of `validate_integer(request.form[k], k)` calls, one per
field name, in order, failing at the first offending field. -/
def fetchInts (form : Form) : List String → Except HandlerErr (List Int)
  | [] => .ok []
  | k :: ks => do
    let v ← fetchInt form k
    let vs ← fetchInts form ks
    .ok (v :: vs)

/-- A sequence of `validate_not_null(value, field)` calls, in order. -/
def notNullAll : List (String × Value) → Except HandlerErr Unit
  | [] => .ok ()
  | (k, v) :: rest => do
    validate_not_null v k
    notNullAll rest

/-- The integer fields validated first (source lines 148-149), in order. -/
def headIntFields : List String := ["overall_rating", "potential"]

/-- The integer fields validated after the three raw text fields (source
lines 153-185), in order. -/
def tailIntFields : List String :=
  ["crossing", "finishing", "heading_accuracy", "short_passing", "volleys",
   "dribbling", "curve", "free_kick_accuracy", "long_passing", "ball_control",
   "acceleration", "sprint_speed", "agility", "reactions", "balance",
   "shot_power", "jumping", "stamina", "strength", "long_shots",
   "aggression", "interceptions", "positioning", "vision", "penalties",
   "marking", "standing_tackle", "sliding_tackle", "gk_diving", "gk_handling",
   "gk_kicking", "gk_positioning", "gk_reflexes"]

/-- All integer skill fields, in validation order. -/
def intFields : List String := headIntFields ++ tailIntFields

/-- All form fields of the update page, in the order the handler reads
them from `request.form`. -/
def allFormFields : List String :=
  headIntFields ++ ["preferred_foot", "attacking_work_rate", "defensive_work_rate"]
    ++ tailIntFields

/-- The argument list of the block of `validate_not_null` calls (source
lines 187-225), in source order. -/
def notNullChecks (current_datetime : String) (headVals : List Int)
    (pf aw dw : String) (tailVals : List Int) : List (String × Value) :=
  [("date", .str current_datetime)]
    ++ headIntFields.zip (headVals.map .int)
    ++ [("preferred_foot", .str pf), ("attacking_work_rate", .str aw),
        ("defensive_work_rate", .str dw)]
    ++ tailIntFields.zip (tailVals.map .int)

/-- One row of the Player_Attributes table.  The 35 integer ratings are
kept as a list in the column order of the INSERT statement. -/
structure AttrRow where
  player_api_id : String
  date : String
  ints : List Int
  preferred_foot : String
  attacking_work_rate : String
  defensive_work_rate : String
deriving DecidableEq, Repr

/-- One row of the Player table. -/
structure PlayerRow where
  player_api_id : String
  player_name : String
deriving DecidableEq, Repr

/-- One row of the account table. -/
structure AccountRow where
  account_number : String
deriving DecidableEq, Repr

/-- One row of the depositor join table. -/
structure DepositorRow where
  customer_name : String
  account_number : String
deriving DecidableEq, Repr

/-- The relational database owned by the storage layer. -/
structure DB where
  players : List PlayerRow
  player_attributes : List AttrRow
  account : List AccountRow
  depositor : List DepositorRow
deriving DecidableEq, Repr

/-- The `POST /players/<player_api_id>/update` handler
(`player_update_save`): compute the timestamp, validate every field in
source order, and on success append exactly one new snapshot row.  The
two `isinstance(..., str)` re-checks of the source are vacuous in the
typed embedding (form values are strings); the `if not current_datetime`
re-check and the enumeration check on `preferred_foot` are kept. -/
def player_update_save (player_api_id : String) (now : DateTime)
    (form : Form) (db : DB) : Except HandlerErr DB := do
  let current_datetime := formatDateTime now
  let headVals ← fetchInts form headIntFields
  let preferred_foot ← fetchRaw form "preferred_foot"
  let attacking_work_rate ← fetchRaw form "attacking_work_rate"
  let defensive_work_rate ← fetchRaw form "defensive_work_rate"
  let tailVals ← fetchInts form tailIntFields
  let _ ← notNullAll (notNullChecks current_datetime headVals preferred_foot
    attacking_work_rate defensive_work_rate tailVals)
  if current_datetime = "" then
    .error (.validation "date" .isRequired)
  else if preferred_foot ∈ (["left", "right", "none"] : List String) then
    .ok { db with player_attributes := db.player_attributes ++
      [{ player_api_id := player_api_id, date := current_datetime,
         ints := headVals ++ tailVals, preferred_foot := preferred_foot,
         attacking_work_rate := attacking_work_rate,
         defensive_work_rate := defensive_work_rate }] }
  else
    .error (.validation "preferred_foot" .mustBeOneOf)

/-- A representative valid value for each form field. -/
def defaultFieldVal (k : String) : String :=
  if k = "preferred_foot" then "left"
  else if k = "attacking_work_rate" then "medium"
  else if k = "defensive_work_rate" then "medium"
  else "50"

/-- A fully valid form submission for the update page. -/
def sampleForm : Form := ⟨allFormFields.map (fun k => (k, defaultFieldVal k))⟩

/-- `sampleForm` with field `k` overridden to `v`. -/
def formWith (k v : String) : Form :=
  ⟨sampleForm.entries.map (fun e => if e.1 = k then (e.1, v) else e)⟩

/-- `sampleForm` with field `k` removed. -/
def formWithout (k : String) : Form :=
  ⟨sampleForm.entries.filter (fun e => e.1 != k)⟩

/-- A concrete request instant. -/
def t0 : DateTime := ⟨2024, 5, 17, 12, 30, 45, 123456⟩

/-- An empty database. -/
def db0 : DB := ⟨[], [], [], []⟩

example : formatDateTime t0 = "2024-05-17 12:30:45" := by decide
example : player_update_save "p1" t0 sampleForm db0 =
    .ok ⟨[], [⟨"p1", "2024-05-17 12:30:45", List.replicate 35 50,
      "left", "medium", "medium"⟩], [], []⟩ := by rfl

/-- The two DELETE statements issued by `account_delete`, in program
order. -/
inductive DelStmt where
  | depositor (account_number : String)
  | account (account_number : String)
deriving DecidableEq, Repr

/-- Effect of `DELETE FROM depositor WHERE account_number = n`. -/
def delDepositorRows (n : String) (db : DB) : DB :=
  { db with depositor := db.depositor.filter (fun d => d.account_number != n) }

/-- Effect of `DELETE FROM account WHERE account_number = n`. -/
def delAccountRows (n : String) (db : DB) : DB :=
  { db with account := db.account.filter (fun a => a.account_number != n) }

/-- Apply one DELETE statement.  `ok` is the storage layer's verdict on
whether the statement succeeds (e.g. no external referential constraint
is violated); on `false` the statement raises and yields no new state. -/
def execDel (ok : DelStmt → DB → Bool) (s : DelStmt) (db : DB) : Option DB :=
  if ok s db then
    some (match s with
      | .depositor n => delDepositorRows n db
      | .account n => delAccountRows n db)
  else none

/-- The transactional body of `account_delete` (the `conn.transaction()`
block): execute the depositor delete, then the account delete, in program
order; commit on success, roll back to the original state on any failure.
Returns the observable state, the executed trace, and whether the unit
committed. -/
def account_delete_txn (ok : DelStmt → DB → Bool) (n : String) (db : DB) :
    DB × List DelStmt × Bool :=
  match execDel ok (.depositor n) db with
  | none => (db, [.depositor n], false)
  | some db2 =>
    match execDel ok (.account n) db2 with
    | none => (db, [.depositor n, .account n], false)
    | some db3 => (db3, [.depositor n, .account n], true)

/-- HTTP methods used by the app. -/
inductive Method where
  | GET
  | POST
deriving DecidableEq, Repr

/-- One `@app.route` registration: method, URL pattern, endpoint name. -/
structure Route where
  method : Method
  pattern : String
  endpoint : String
deriving DecidableEq, Repr

/-- The app's routing table, one entry per `@app.route` line of
src/app.py, in source order. -/
def routes : List Route :=
  [⟨.GET, "/", "player_index"⟩,
   ⟨.GET, "/players", "player_index"⟩,
   ⟨.POST, "/players/update", "player_update_view"⟩,
   ⟨.POST, "/players/<player_api_id>/update", "player_update_save"⟩,
   ⟨.POST, "/accounts/<account_number>/delete", "account_delete"⟩,
   ⟨.GET, "/ping", "ping"⟩]

/-- Flask's `url_for`: resolve an endpoint name against the routing
table; `none` models the `BuildError` raised for an unknown endpoint. -/
def url_for (endpoint : String) : Option String :=
  (routes.find? (fun r => r.endpoint == endpoint)).map (fun r => r.pattern)

/-- The outcome of a handler's final statement. -/
inductive Response where
  | redirect (loc : String)
  | buildError
deriving DecidableEq, Repr

/-- The full `POST /accounts/<account_number>/delete` handler: run the
transactional double delete, then `redirect(url_for("account_index"))`. -/
def account_delete (ok : DelStmt → DB → Bool) (n : String) (db : DB) :
    (DB × List DelStmt × Bool) × Response :=
  (account_delete_txn ok n db,
   match url_for "account_index" with
   | some p => .redirect p
   | none => .buildError)

/-- One row of the result of the lookup query of `player_update_view`:
a Player_Attributes snapshot joined with the player's display name. -/
structure JoinRow where
  pa : AttrRow
  player_name : String
deriving DecidableEq, Repr

/-- The row set of `SELECT pa.*, p.player_name FROM player_attributes pa
JOIN Player p ON pa.player_api_id = p.player_api_id WHERE
pa.player_api_id = %(player_api_id)s` (before ordering). -/
def joinRows (player_api_id : String) (db : DB) : List JoinRow :=
  (db.player_attributes.filter (fun pa => pa.player_api_id == player_api_id)).flatMap
    (fun pa => (db.players.filter
        (fun p => p.player_api_id == pa.player_api_id)).map
      (fun p => ⟨pa, p.player_name⟩))

/-- Lexicographic order on character lists, by code point. -/
def lexLe : List Char → List Char → Bool
  | [], _ => true
  | _ :: _, [] => false
  | a :: as, b :: bs =>
    if a.toNat < b.toNat then true
    else if b.toNat < a.toNat then false
    else lexLe as bs

/-- The storage order on date columns (`ORDER BY pa.date`): the dates are
`YYYY-MM-DD HH:MM:SS` strings, whose lexicographic order is
chronological. -/
def dateLe (a b : String) : Bool := lexLe a.data b.data

/-- Keep the row with the later date (for `ORDER BY pa.date DESC`). -/
def laterRow (a b : JoinRow) : JoinRow :=
  if dateLe a.pa.date b.pa.date then b else a

/-- `ORDER BY pa.date DESC LIMIT 1` followed by `fetchone()`: one row of
maximal date, or `none` on an empty result set. -/
def selectLatest : List JoinRow → Option JoinRow
  | [] => none
  | r :: rs => some (rs.foldl laterRow r)

/-- The `POST /players/update` handler (`player_update_view`): a pure
lookup; the returned pair exposes the result and the (unchanged)
database state it leaves behind. -/
def player_update_view (player_api_id : String) (db : DB) :
    Option JoinRow × DB :=
  (selectLatest (joinRows player_api_id db), db)

example :
    account_delete (fun _ _ => true) "a1"
      ⟨[], [], [⟨"a1"⟩, ⟨"a2"⟩], [⟨"c", "a1"⟩]⟩ =
    ((⟨[], [], [⟨"a2"⟩], []⟩, [.depositor "a1", .account "a1"], true),
      .buildError) := by rfl
example : url_for "player_index" = some "/" := by rfl
example : url_for "account_index" = none := by rfl

@[simp]
theorem ebind_ok {α β : Type} (a : α) (f : α → Except HandlerErr β) :
    (Except.ok a >>= f) = f a := rfl

@[simp]
theorem ebind_error {α β : Type} (e : HandlerErr) (f : α → Except HandlerErr β) :
    ((Except.error e : Except HandlerErr α) >>= f) = .error e := rfl

theorem dropWhile_append_all {p : Char → Bool} {w : List Char} (r : List Char)
    (hw : ∀ c ∈ w, p c = true) :
    List.dropWhile p (w ++ r) = List.dropWhile p r := by
  induction w with
  | nil => rfl
  | cons a w ih =>
    rw [List.cons_append, List.dropWhile_cons, hw a (by simp)]
    exact ih (fun c hc => hw c (by simp [hc]))

theorem dropWhile_cons_neg {p : Char → Bool} {a : Char} (r : List Char)
    (ha : p a = false) : List.dropWhile p (a :: r) = a :: r := by
  rw [List.dropWhile_cons, ha]
  simp

theorem mem_dropWhile_of_neg {p : Char → Bool} {c : Char} {l : List Char}
    (hc : c ∈ l) (hp : p c = false) : c ∈ l.dropWhile p := by
  induction l with
  | nil => cases hc
  | cons a l ih =>
    rw [List.dropWhile_cons]
    cases ha : p a with
    | true =>
      have : c ≠ a := fun e => by rw [e, ha] at hp; cases hp
      simp only [if_pos rfl]
      exact ih (by rcases List.mem_cons.mp hc with h | h; exact absurd h this; exact h)
    | false => simpa using hc

theorem stripWs_ne_nil {l : List Char} {c : Char} (hc : c ∈ l)
    (hw : isPyWs c = false) : stripWs l ≠ [] := by
  intro h
  unfold stripWs at h
  rw [List.reverse_eq_nil_iff, List.dropWhile_eq_nil_iff] at h
  have h1 : c ∈ (l.dropWhile isPyWs).reverse :=
    List.mem_reverse.mpr (mem_dropWhile_of_neg hc hw)
  rw [h c h1] at hw
  cases hw

theorem stripWs_sandwich (w1 w2 m : List Char) (a d : Char) (t ys : List Char)
    (hm1 : m = a :: t) (hm2 : m = ys ++ [d])
    (hw1 : ∀ c ∈ w1, isPyWs c = true) (hw2 : ∀ c ∈ w2, isPyWs c = true)
    (ha : isPyWs a = false) (hd : isPyWs d = false) :
    stripWs (w1 ++ m ++ w2) = m := by
  unfold stripWs
  rw [List.append_assoc, dropWhile_append_all (m ++ w2) hw1]
  have h1 : List.dropWhile isPyWs (m ++ w2) = m ++ w2 := by
    rw [hm1, List.cons_append]
    exact dropWhile_cons_neg _ ha
  rw [h1, List.reverse_append,
    dropWhile_append_all m.reverse (fun c hc => hw2 c (List.mem_reverse.mp hc)),
    hm2, List.reverse_append]
  have h2 : ([d].reverse ++ ys.reverse) = d :: ys.reverse := rfl
  rw [h2, dropWhile_cons_neg _ hd]
  simp

theorem ws_not_digit {c : Char} (h : isPyWs c = true) : c.isDigit = false := by
  simp only [isPyWs, Bool.or_eq_true, decide_eq_true_eq] at h
  rcases h with ((((h | h) | h) | h) | h) | h <;> subst h <;> decide

theorem digit_not_ws {c : Char} (h : c.isDigit = true) : isPyWs c = false := by
  cases hw : isPyWs c with
  | false => rfl
  | true => rw [ws_not_digit hw] at h; cases h

theorem digit_ne_of_not_digit {c x : Char} (h : c.isDigit = true)
    (hx : x.isDigit = false) : c ≠ x := by
  intro e
  rw [e, hx] at h
  cases h

/-- Base-10 value of a digit list, folded onto an accumulator. -/
def digitsVal (l : List Char) (acc : Nat) : Nat :=
  l.foldl (fun a c => a * 10 + digitVal c) acc

/-- Base-10 value of a digit list. -/
def decimalVal (l : List Char) : Nat := digitsVal l 0

/-- Digit groups joined by single underscores: the body grammar of a
Python integer literal string. -/
def underscoreNum : List (List Char) → List Char
  | [] => []
  | [g] => g
  | g :: gs => g ++ '_' :: underscoreNum gs

/-- The sign factor contributed by an optional sign character. -/
def signVal (sgn : List Char) : Int :=
  if sgn = ['-'] then -1 else 1

theorem pyDigitsRest_nil (acc : Nat) : pyDigitsRest [] acc = some acc := rfl

theorem pyDigitsRest_cons (c : Char) (cs : List Char) (acc : Nat) :
    pyDigitsRest (c :: cs) acc =
      if c = '_' then
        (match cs with
         | c2 :: cs2 =>
           if c2.isDigit then pyDigitsRest cs2 (acc * 10 + digitVal c2) else none
         | [] => none)
      else if c.isDigit then pyDigitsRest cs (acc * 10 + digitVal c) else none := by
  rw [pyDigitsRest.eq_def]

theorem digitsVal_cons (c : Char) (l : List Char) (acc : Nat) :
    digitsVal (c :: l) acc = digitsVal l (acc * 10 + digitVal c) := rfl

theorem digitsVal_append (l1 l2 : List Char) (acc : Nat) :
    digitsVal (l1 ++ l2) acc = digitsVal l2 (digitsVal l1 acc) := by
  simp [digitsVal, List.foldl_append]

theorem pyDigitsRest_digits_append (g tl : List Char) (acc : Nat)
    (hg : ∀ c ∈ g, c.isDigit = true) :
    pyDigitsRest (g ++ tl) acc = pyDigitsRest tl (digitsVal g acc) := by
  induction g generalizing acc with
  | nil => simp [digitsVal]
  | cons c g ih =>
    have hc : c.isDigit = true := hg c (by simp)
    have hcu : ¬ c = '_' := digit_ne_of_not_digit hc (by decide)
    rw [List.cons_append, pyDigitsRest_cons, if_neg hcu, hc, if_pos rfl,
      ih _ (fun x hx => hg x (by simp [hx])), digitsVal_cons]

theorem pyDigitsRest_digits (g : List Char) (acc : Nat)
    (hg : ∀ c ∈ g, c.isDigit = true) :
    pyDigitsRest g acc = some (digitsVal g acc) := by
  have h := pyDigitsRest_digits_append g [] acc hg
  rw [List.append_nil] at h
  rw [h, pyDigitsRest_nil]

theorem pyDigitsRest_und_group (g tl : List Char) (acc : Nat)
    (hne : g ≠ []) (hg : ∀ c ∈ g, c.isDigit = true) :
    pyDigitsRest ('_' :: (g ++ tl)) acc = pyDigitsRest tl (digitsVal g acc) := by
  rcases g with _ | ⟨c, g⟩
  · exact absurd rfl hne
  have hc : c.isDigit = true := hg c (by simp)
  rw [pyDigitsRest_cons, if_pos rfl, List.cons_append]
  show (if c.isDigit = true then pyDigitsRest (g ++ tl) (acc * 10 + digitVal c)
        else none) = _
  rw [hc, if_pos rfl, pyDigitsRest_digits_append g tl _ (fun x hx => hg x (by simp [hx])),
    digitsVal_cons]

theorem pyDigitsRest_underscoreNum (gs : List (List Char)) (acc : Nat)
    (hne : gs ≠ []) (hg : ∀ g ∈ gs, g ≠ [] ∧ ∀ c ∈ g, c.isDigit = true) :
    pyDigitsRest ('_' :: underscoreNum gs) acc = some (digitsVal gs.flatten acc) := by
  induction gs generalizing acc with
  | nil => exact absurd rfl hne
  | cons g gs ih =>
    rcases hg g (by simp) with ⟨hgne, hgd⟩
    rcases gs with _ | ⟨g2, gs2⟩
    · have hu : underscoreNum [g] = g ++ [] := by simp [underscoreNum]
      rw [hu, pyDigitsRest_und_group g [] acc hgne hgd, pyDigitsRest_nil]
      simp [digitsVal]
    · have hu : underscoreNum (g :: g2 :: gs2) = g ++ '_' :: underscoreNum (g2 :: gs2) :=
        rfl
      rw [hu, pyDigitsRest_und_group g _ acc hgne hgd,
        ih _ (by simp) (fun x hx => hg x (by simp [hx]))]
      simp [digitsVal_append]

theorem pyNatPart_cons (c : Char) (cs : List Char) :
    pyNatPart (c :: cs) =
      if c.isDigit then pyDigitsRest cs (digitVal c) else none := by
  rw [pyNatPart.eq_def]

theorem pyNatPart_underscoreNum (gs : List (List Char))
    (hne : gs ≠ []) (hg : ∀ g ∈ gs, g ≠ [] ∧ ∀ c ∈ g, c.isDigit = true) :
    pyNatPart (underscoreNum gs) = some (decimalVal gs.flatten) := by
  rcases gs with _ | ⟨g, gs⟩
  · exact absurd rfl hne
  rcases hg g (by simp) with ⟨hgne, hgd⟩
  rcases g with _ | ⟨c, g⟩
  · exact absurd rfl hgne
  have hc : c.isDigit = true := hgd c (by simp)
  rcases gs with _ | ⟨g2, gs2⟩
  · have hu : underscoreNum [c :: g] = c :: g := rfl
    rw [hu, pyNatPart_cons, hc, if_pos rfl,
      pyDigitsRest_digits g _ (fun x hx => hgd x (by simp [hx]))]
    simp [decimalVal, digitsVal_cons, digitVal]
  · have hu : underscoreNum ((c :: g) :: g2 :: gs2) =
        c :: (g ++ '_' :: underscoreNum (g2 :: gs2)) := rfl
    rw [hu, pyNatPart_cons, hc, if_pos rfl,
      pyDigitsRest_digits_append g _ _ (fun x hx => hgd x (by simp [hx])),
      pyDigitsRest_underscoreNum (g2 :: gs2) _ (by simp)
        (fun x hx => hg x (by simp [hx]))]
    simp [decimalVal, digitsVal_cons, digitsVal_append]

theorem underscoreNum_head (c : Char) (g : List Char) (gs : List (List Char)) :
    ∃ rest, underscoreNum ((c :: g) :: gs) = c :: rest := by
  rcases gs with _ | ⟨g2, gs2⟩
  · exact ⟨g, rfl⟩
  · exact ⟨g ++ '_' :: underscoreNum (g2 :: gs2), rfl⟩

theorem underscoreNum_concat (gs : List (List Char)) (hne : gs ≠ [])
    (hg : ∀ g ∈ gs, g ≠ [] ∧ ∀ c ∈ g, c.isDigit = true) :
    ∃ ys d, underscoreNum gs = ys ++ [d] ∧ d.isDigit = true := by
  induction gs with
  | nil => exact absurd rfl hne
  | cons g gs ih =>
    rcases hg g (by simp) with ⟨hgne, hgd⟩
    rcases gs with _ | ⟨g2, gs2⟩
    · rcases List.eq_nil_or_concat g with h | ⟨ys, d, h⟩
      · exact absurd h hgne
      · refine ⟨ys, d, ?_, hgd d ?_⟩
        · simp [underscoreNum, h, List.concat_eq_append]
        · rw [h, List.concat_eq_append]
          simp
    · rcases ih (by simp) (fun x hx => hg x (by simp [hx])) with ⟨ys, d, hys, hd⟩
      refine ⟨g ++ '_' :: ys, d, ?_, hd⟩
      have hu : underscoreNum (g :: g2 :: gs2) = g ++ '_' :: underscoreNum (g2 :: gs2) :=
        rfl
      rw [hu, hys]
      simp

/-- C10: `validate_integer` succeeds on every string made of optional
surrounding whitespace, an optional sign, and base-10 digit groups
separated by single underscores, returning the signed decimal value —
the acceptance behavior of Python's `int()`. -/
theorem spec_c10 (ws1 ws2 sgn : List Char) (groups : List (List Char)) (field : String)
    (hw1 : ∀ c ∈ ws1, isPyWs c = true) (hw2 : ∀ c ∈ ws2, isPyWs c = true)
    (hs : sgn = [] ∨ sgn = ['+'] ∨ sgn = ['-'])
    (hne : groups ≠ [])
    (hg : ∀ g ∈ groups, g ≠ [] ∧ ∀ c ∈ g, c.isDigit = true) :
    validate_integer ⟨ws1 ++ (sgn ++ underscoreNum groups) ++ ws2⟩ field =
      .ok (signVal sgn * (decimalVal groups.flatten : Int)) := by
  rcases groups with _ | ⟨g, gs⟩
  · exact absurd rfl hne
  rcases hg g (by simp) with ⟨hgne, hgd⟩
  rcases g with _ | ⟨c, g2⟩
  · exact absurd rfl hgne
  have hc : c.isDigit = true := hgd c (by simp)
  obtain ⟨rest, hhead⟩ := underscoreNum_head c g2 gs
  obtain ⟨ys, d, hconcat, hd⟩ := underscoreNum_concat ((c :: g2) :: gs) (by simp) hg
  have hnat : pyNatPart (underscoreNum ((c :: g2) :: gs)) =
      some (decimalVal ((c :: g2) :: gs).flatten) :=
    pyNatPart_underscoreNum _ (by simp) hg
  have hv : pyIntOfChars (ws1 ++ (sgn ++ underscoreNum ((c :: g2) :: gs)) ++ ws2) =
      some (signVal sgn * (decimalVal ((c :: g2) :: gs).flatten : Int)) := by
    rcases hs with rfl | rfl | rfl
    · have hstrip : stripWs (ws1 ++ ([] ++ underscoreNum ((c :: g2) :: gs)) ++ ws2) =
          [] ++ underscoreNum ((c :: g2) :: gs) := by
        refine stripWs_sandwich _ _ _ c d (rest) (ys) ?_ ?_ hw1 hw2
          (digit_not_ws hc) (digit_not_ws hd)
        · rw [List.nil_append, hhead]
        · rw [List.nil_append, hconcat]
      unfold pyIntOfChars
      rw [hstrip, List.nil_append, hhead]
      show (if c = '+' then (pyNatPart rest).map Int.ofNat
            else if c = '-' then (pyNatPart rest).map (fun n => -(Int.ofNat n))
            else (pyNatPart (c :: rest)).map Int.ofNat) = _
      rw [if_neg (digit_ne_of_not_digit hc (by decide)),
        if_neg (digit_ne_of_not_digit hc (by decide)), ← hhead, hnat]
      simp [signVal]
    · have hstrip : stripWs (ws1 ++ (['+'] ++ underscoreNum ((c :: g2) :: gs)) ++ ws2) =
          ['+'] ++ underscoreNum ((c :: g2) :: gs) := by
        refine stripWs_sandwich _ _ _ '+' d (underscoreNum ((c :: g2) :: gs))
          ('+' :: ys) rfl ?_ hw1 hw2 (by decide) (digit_not_ws hd)
        · rw [hconcat]
          simp
      unfold pyIntOfChars
      rw [hstrip]
      show (if ('+' : Char) = '+' then
              (pyNatPart (underscoreNum ((c :: g2) :: gs))).map Int.ofNat
            else if ('+' : Char) = '-' then
              (pyNatPart (underscoreNum ((c :: g2) :: gs))).map (fun n => -(Int.ofNat n))
            else (pyNatPart ('+' :: underscoreNum ((c :: g2) :: gs))).map Int.ofNat) = _
      rw [if_pos rfl, hnat]
      simp [signVal]
    · have hstrip : stripWs (ws1 ++ (['-'] ++ underscoreNum ((c :: g2) :: gs)) ++ ws2) =
          ['-'] ++ underscoreNum ((c :: g2) :: gs) := by
        refine stripWs_sandwich _ _ _ '-' d (underscoreNum ((c :: g2) :: gs))
          ('-' :: ys) rfl ?_ hw1 hw2 (by decide) (digit_not_ws hd)
        · rw [hconcat]
          simp
      unfold pyIntOfChars
      rw [hstrip]
      show (if ('-' : Char) = '+' then
              (pyNatPart (underscoreNum ((c :: g2) :: gs))).map Int.ofNat
            else if ('-' : Char) = '-' then
              (pyNatPart (underscoreNum ((c :: g2) :: gs))).map (fun n => -(Int.ofNat n))
            else (pyNatPart ('-' :: underscoreNum ((c :: g2) :: gs))).map Int.ofNat) = _
      rw [if_neg (by decide), if_pos rfl, hnat]
      simp [signVal]
  have hdata : pyIntOfString ⟨ws1 ++ (sgn ++ underscoreNum ((c :: g2) :: gs)) ++ ws2⟩ =
      pyIntOfChars (ws1 ++ (sgn ++ underscoreNum ((c :: g2) :: gs)) ++ ws2) := rfl
  unfold validate_integer
  rw [hdata, hv]

/-- Witness for C10 at the concrete input " -7 ". -/
theorem spec_c10_witness : validate_integer " -7 " "potential" = .ok (-7) := by
  have h := spec_c10 [' '] [' '] ['-'] [['7']] "potential"
    (by intro c hc; simp at hc; subst hc; decide)
    (by intro c hc; simp at hc; subst hc; decide)
    (by simp) (by simp)
    (by intro g hgm; simp at hgm; subst hgm;
        exact ⟨by simp, by intro c hc; simp at hc; subst hc; decide⟩)
  simpa [underscoreNum, signVal, decimalVal, digitsVal, digitVal] using h

/-- Field `k` is present in the form. -/
def presentIn (form : Form) (k : String) : Prop :=
  ∃ s, form.get? k = some s

/-- Field `k` is present and its value parses as a Python integer. -/
def parses (form : Form) (k : String) : Prop :=
  ∃ s n, form.get? k = some s ∧ pyIntOfString s = some n

/-- Whether a handler completed without raising. -/
def exceptIsOk {ε α : Type} : Except ε α → Bool
  | .ok _ => true
  | .error _ => false

theorem fetchRaw_some {form : Form} {k s : String} (hs : form.get? k = some s) :
    fetchRaw form k = .ok s := by
  unfold fetchRaw
  rw [hs]

theorem fetchRaw_none {form : Form} {k : String} (hs : form.get? k = none) :
    fetchRaw form k = .error (.badRequestKey k) := by
  unfold fetchRaw
  rw [hs]

theorem fetchInt_ok {form : Form} {k s : String} {n : Int}
    (hs : form.get? k = some s) (hn : pyIntOfString s = some n) :
    fetchInt form k = .ok n := by
  unfold fetchInt
  rw [fetchRaw_some hs, ebind_ok]
  unfold validate_integer
  rw [hn]

theorem fetchInt_bad {form : Form} {k s : String}
    (hs : form.get? k = some s) (hn : pyIntOfString s = none) :
    fetchInt form k = .error (.validation k .mustBeInteger) := by
  unfold fetchInt
  rw [fetchRaw_some hs, ebind_ok]
  unfold validate_integer
  rw [hn]

theorem fetchInt_missing {form : Form} {k : String} (hs : form.get? k = none) :
    fetchInt form k = .error (.badRequestKey k) := by
  unfold fetchInt
  rw [fetchRaw_none hs, ebind_error]

theorem fetchInts_nil (form : Form) : fetchInts form [] = .ok [] := rfl

theorem fetchInts_cons (form : Form) (k : String) (ks : List String) :
    fetchInts form (k :: ks) =
      (fetchInt form k >>= fun v =>
        fetchInts form ks >>= fun vs => .ok (v :: vs)) := rfl

theorem fetchInts_ok_of_parses {form : Form} {ks : List String}
    (h : ∀ k ∈ ks, parses form k) : ∃ vs, fetchInts form ks = .ok vs := by
  induction ks with
  | nil => exact ⟨[], rfl⟩
  | cons k ks ih =>
    obtain ⟨s, n, hs, hn⟩ := h k (by simp)
    obtain ⟨vs, hvs⟩ := ih (fun j hj => h j (by simp [hj]))
    exact ⟨n :: vs, by rw [fetchInts_cons, fetchInt_ok hs hn, ebind_ok, hvs, ebind_ok]⟩

theorem fetchInts_error_first {form : Form} {ks : List String} {k : String} {s : String}
    (hk : k ∈ ks)
    (hbefore : ∀ j ∈ ks.takeWhile (fun x => x != k), parses form j)
    (hs : form.get? k = some s) (hn : pyIntOfString s = none) :
    fetchInts form ks = .error (.validation k .mustBeInteger) := by
  induction ks with
  | nil => cases hk
  | cons a ks ih =>
    by_cases hak : a = k
    · subst hak
      rw [fetchInts_cons, fetchInt_bad hs hn, ebind_error]
    · have hane : (a != k) = true := bne_iff_ne.mpr hak
      have hba : a ∈ (a :: ks).takeWhile (fun x => x != k) := by
        rw [List.takeWhile_cons, hane]
        simp
      obtain ⟨s2, n2, hs2, hn2⟩ := hbefore a hba
      have hkks : k ∈ ks := by
        rcases List.mem_cons.mp hk with h | h
        · exact absurd h.symm hak
        · exact h
      have hb2 : ∀ j ∈ ks.takeWhile (fun x => x != k), parses form j := by
        intro j hj
        refine hbefore j ?_
        rw [List.takeWhile_cons, hane]
        simp [hj]
      rw [fetchInts_cons, fetchInt_ok hs2 hn2, ebind_ok, ih hkks hb2, ebind_error]

theorem fetchInts_error_missing {form : Form} {ks : List String} {k : String}
    (hk : k ∈ ks)
    (hbefore : ∀ j ∈ ks.takeWhile (fun x => x != k), parses form j)
    (hs : form.get? k = none) :
    fetchInts form ks = .error (.badRequestKey k) := by
  induction ks with
  | nil => cases hk
  | cons a ks ih =>
    by_cases hak : a = k
    · subst hak
      rw [fetchInts_cons, fetchInt_missing hs, ebind_error]
    · have hane : (a != k) = true := bne_iff_ne.mpr hak
      have hba : a ∈ (a :: ks).takeWhile (fun x => x != k) := by
        rw [List.takeWhile_cons, hane]
        simp
      obtain ⟨s2, n2, hs2, hn2⟩ := hbefore a hba
      have hkks : k ∈ ks := by
        rcases List.mem_cons.mp hk with h | h
        · exact absurd h.symm hak
        · exact h
      have hb2 : ∀ j ∈ ks.takeWhile (fun x => x != k), parses form j := by
        intro j hj
        refine hbefore j ?_
        rw [List.takeWhile_cons, hane]
        simp [hj]
      rw [fetchInts_cons, fetchInt_ok hs2 hn2, ebind_ok, ih hkks hb2, ebind_error]

theorem fetchInt_error_inv {form : Form} {k : String} {e : HandlerErr}
    (h : fetchInt form k = .error e) :
    e = .badRequestKey k ∨ e = .validation k .mustBeInteger := by
  unfold fetchInt at h
  cases hs : form.get? k with
  | none =>
    rw [fetchRaw_none hs, ebind_error] at h
    exact Or.inl (Except.error.inj h).symm
  | some s =>
    rw [fetchRaw_some hs, ebind_ok] at h
    unfold validate_integer at h
    cases hn : pyIntOfString s with
    | none =>
      rw [hn] at h
      exact Or.inr (Except.error.inj h).symm
    | some n =>
      rw [hn] at h
      cases h

theorem fetchInts_error_inv {form : Form} {ks : List String} {e : HandlerErr}
    (h : fetchInts form ks = .error e) :
    (∃ k, e = .badRequestKey k) ∨ (∃ k, e = .validation k .mustBeInteger) := by
  induction ks with
  | nil => cases h
  | cons a ks ih =>
    rw [fetchInts_cons] at h
    cases ha : fetchInt form a with
    | error e2 =>
      rw [ha, ebind_error] at h
      rcases fetchInt_error_inv ha with h2 | h2
      · exact Or.inl ⟨a, (Except.error.inj h).symm.trans h2⟩
      · exact Or.inr ⟨a, (Except.error.inj h).symm.trans h2⟩
    | ok v =>
      rw [ha, ebind_ok] at h
      cases hvs : fetchInts form ks with
      | error e3 =>
        rw [hvs, ebind_error] at h
        have he : e3 = e := Except.error.inj h
        rw [he] at hvs
        exact ih hvs
      | ok vs =>
        rw [hvs, ebind_ok] at h
        cases h

/-- A value that `validate_not_null` accepts. -/
def passesNotNull : Value → Prop
  | .int _ => True
  | .str s => pyStrip s ≠ ""

theorem validate_not_null_ok {v : Value} {k : String} (h : passesNotNull v) :
    validate_not_null v k = .ok () := by
  cases v with
  | int n => rfl
  | str s =>
    show (if pyStrip s = "" then (.error (.validation k .isRequired) : Except HandlerErr Unit)
          else .ok ()) = .ok ()
    rw [if_neg h]

theorem validate_not_null_fail {s k : String} (h : pyStrip s = "") :
    validate_not_null (.str s) k = .error (.validation k .isRequired) := by
  show (if pyStrip s = "" then (.error (.validation k .isRequired) : Except HandlerErr Unit)
        else .ok ()) = _
  rw [if_pos h]

theorem notNullAll_nil : notNullAll [] = .ok () := rfl

theorem notNullAll_cons (k : String) (v : Value) (l : List (String × Value)) :
    notNullAll ((k, v) :: l) =
      (validate_not_null v k >>= fun _ => notNullAll l) := rfl

theorem notNullAll_ok {l : List (String × Value)}
    (h : ∀ e ∈ l, passesNotNull e.2) : notNullAll l = .ok () := by
  induction l with
  | nil => rfl
  | cons e l ih =>
    rcases e with ⟨k, v⟩
    rw [notNullAll_cons, validate_not_null_ok (h (k, v) (by simp)), ebind_ok]
    exact ih (fun x hx => h x (by simp [hx]))

theorem notNullAll_error_inv {l : List (String × Value)} {e : HandlerErr}
    (h : notNullAll l = .error e) :
    ∃ f s, e = .validation f .isRequired ∧ (f, Value.str s) ∈ l ∧ pyStrip s = "" := by
  induction l with
  | nil => cases h
  | cons x l ih =>
    rcases x with ⟨k, v⟩
    rw [notNullAll_cons] at h
    cases v with
    | int n =>
      rw [show validate_not_null (.int n) k = .ok () from rfl, ebind_ok] at h
      obtain ⟨f, s, he, hm, hs⟩ := ih h
      exact ⟨f, s, he, by simp [hm], hs⟩
    | str s =>
      by_cases hs : pyStrip s = ""
      · rw [validate_not_null_fail hs, ebind_error] at h
        exact ⟨k, s, (Except.error.inj h).symm, by simp, hs⟩
      · rw [validate_not_null_ok (by exact hs), ebind_ok] at h
        obtain ⟨f, s2, he, hm, hs2⟩ := ih h
        exact ⟨f, s2, he, by simp [hm], hs2⟩

theorem notNullAll_error_first {l1 l2 : List (String × Value)} {k s : String}
    (h1 : ∀ e ∈ l1, passesNotNull e.2) (hs : pyStrip s = "") :
    notNullAll (l1 ++ (k, Value.str s) :: l2) = .error (.validation k .isRequired) := by
  induction l1 with
  | nil =>
    rw [List.nil_append, notNullAll_cons, validate_not_null_fail hs, ebind_error]
  | cons x l1 ih =>
    rcases x with ⟨k2, v2⟩
    rw [List.cons_append, notNullAll_cons,
      validate_not_null_ok (h1 (k2, v2) (by simp)), ebind_ok]
    exact ih (fun e he => h1 e (by simp [he]))

theorem snd_of_mem_zip_int {ks : List String} {vs : List Int} {f : String} {v : Value}
    (h : (f, v) ∈ ks.zip (vs.map Value.int)) : ∃ n, v = Value.int n := by
  have hv : v ∈ vs.map Value.int := (List.of_mem_zip h).2
  obtain ⟨n, _, hn⟩ := List.mem_map.mp hv
  exact ⟨n, hn.symm⟩

theorem takeWhile_append_of_mem {k : String} {xs : List String} (ys : List String)
    (hk : k ∈ xs) :
    (xs ++ ys).takeWhile (fun x => x != k) = xs.takeWhile (fun x => x != k) := by
  induction xs with
  | nil => cases hk
  | cons a xs ih =>
    by_cases hak : a = k
    · subst hak
      rw [List.cons_append, List.takeWhile_cons, List.takeWhile_cons]
      simp
    · have hane : (a != k) = true := bne_iff_ne.mpr hak
      have hkxs : k ∈ xs := by
        rcases List.mem_cons.mp hk with h | h
        · exact absurd h.symm hak
        · exact h
      rw [List.cons_append, List.takeWhile_cons, List.takeWhile_cons, hane]
      simp only [if_pos rfl]
      rw [ih hkxs]

theorem takeWhile_append_of_all {k : String} {xs : List String} (ys : List String)
    (hxs : ∀ x ∈ xs, x ≠ k) :
    (xs ++ ys).takeWhile (fun x => x != k) =
      xs ++ ys.takeWhile (fun x => x != k) := by
  induction xs with
  | nil => rfl
  | cons a xs ih =>
    have hane : (a != k) = true := bne_iff_ne.mpr (hxs a (by simp))
    rw [List.cons_append, List.takeWhile_cons, hane,
      ih (fun x hx => hxs x (by simp [hx]))]
    simp

theorem formatDateTime_data (t : DateTime) :
    (formatDateTime t).data =
      pad4 t.year ++ '-' :: pad2 t.month ++ '-' :: pad2 t.day ++
        ' ' :: pad2 t.hour ++ ':' :: pad2 t.minute ++ ':' :: pad2 t.second := rfl

theorem dash_mem_formatDateTime (t : DateTime) : '-' ∈ (formatDateTime t).data := by
  rw [formatDateTime_data]
  simp

theorem pyStrip_formatDateTime_ne_empty (t : DateTime) :
    pyStrip (formatDateTime t) ≠ "" := by
  intro h
  have h2 : stripWs (formatDateTime t).data = [] := by
    have := congrArg String.data h
    exact this
  exact stripWs_ne_nil (dash_mem_formatDateTime t) (by decide) h2

theorem formatDateTime_ne_empty (t : DateTime) : formatDateTime t ≠ "" := by
  intro h
  have h2 : (formatDateTime t).data = [] := by
    have := congrArg String.data h
    exact this
  rw [formatDateTime_data] at h2
  rcases List.append_eq_nil.mp h2 with ⟨_, h3⟩
  cases h3

theorem player_update_save_def (pid : String) (now : DateTime) (form : Form) (db : DB) :
    player_update_save pid now form db =
      (fetchInts form headIntFields >>= fun headVals =>
       fetchRaw form "preferred_foot" >>= fun preferred_foot =>
       fetchRaw form "attacking_work_rate" >>= fun attacking_work_rate =>
       fetchRaw form "defensive_work_rate" >>= fun defensive_work_rate =>
       fetchInts form tailIntFields >>= fun tailVals =>
       notNullAll (notNullChecks (formatDateTime now) headVals preferred_foot
         attacking_work_rate defensive_work_rate tailVals) >>= fun _ =>
       if formatDateTime now = "" then
         .error (.validation "date" .isRequired)
       else if preferred_foot ∈ (["left", "right", "none"] : List String) then
         .ok { db with player_attributes := db.player_attributes ++
           [{ player_api_id := pid, date := formatDateTime now,
              ints := headVals ++ tailVals, preferred_foot := preferred_foot,
              attacking_work_rate := attacking_work_rate,
              defensive_work_rate := defensive_work_rate }] }
       else
         .error (.validation "preferred_foot" .mustBeOneOf)) := rfl

theorem save_steps {pid : String} {now : DateTime} {form : Form} {db : DB}
    {headVals tailVals : List Int} {pf aw dw : String}
    (h1 : fetchInts form headIntFields = .ok headVals)
    (h2 : form.get? "preferred_foot" = some pf)
    (h3 : form.get? "attacking_work_rate" = some aw)
    (h4 : form.get? "defensive_work_rate" = some dw)
    (h5 : fetchInts form tailIntFields = .ok tailVals) :
    player_update_save pid now form db =
      (notNullAll (notNullChecks (formatDateTime now) headVals pf aw dw tailVals) >>=
        fun _ =>
       if formatDateTime now = "" then
         .error (.validation "date" .isRequired)
       else if pf ∈ (["left", "right", "none"] : List String) then
         .ok { db with player_attributes := db.player_attributes ++
           [{ player_api_id := pid, date := formatDateTime now,
              ints := headVals ++ tailVals, preferred_foot := pf,
              attacking_work_rate := aw, defensive_work_rate := dw }] }
       else
         .error (.validation "preferred_foot" .mustBeOneOf)) := by
  rw [player_update_save_def, h1, ebind_ok, fetchRaw_some h2, ebind_ok,
    fetchRaw_some h3, ebind_ok, fetchRaw_some h4, ebind_ok, h5, ebind_ok]

theorem player_update_save_ok_inv {pid : String} {now : DateTime} {form : Form}
    {db db2 : DB} (h : player_update_save pid now form db = .ok db2) :
    ∃ headVals pf aw dw tailVals,
      fetchInts form headIntFields = .ok headVals ∧
      form.get? "preferred_foot" = some pf ∧
      form.get? "attacking_work_rate" = some aw ∧
      form.get? "defensive_work_rate" = some dw ∧
      fetchInts form tailIntFields = .ok tailVals ∧
      pf ∈ (["left", "right", "none"] : List String) ∧
      db2 = { db with player_attributes := db.player_attributes ++
        [{ player_api_id := pid, date := formatDateTime now,
           ints := headVals ++ tailVals, preferred_foot := pf,
           attacking_work_rate := aw, defensive_work_rate := dw }] } := by
  cases h1 : fetchInts form headIntFields with
  | error e =>
    rw [player_update_save_def, h1, ebind_error] at h
    cases h
  | ok headVals =>
  cases h2 : form.get? "preferred_foot" with
  | none =>
    rw [player_update_save_def, h1, ebind_ok, fetchRaw_none h2, ebind_error] at h
    cases h
  | some pf =>
  cases h3 : form.get? "attacking_work_rate" with
  | none =>
    rw [player_update_save_def, h1, ebind_ok, fetchRaw_some h2, ebind_ok,
      fetchRaw_none h3, ebind_error] at h
    cases h
  | some aw =>
  cases h4 : form.get? "defensive_work_rate" with
  | none =>
    rw [player_update_save_def, h1, ebind_ok, fetchRaw_some h2, ebind_ok,
      fetchRaw_some h3, ebind_ok, fetchRaw_none h4, ebind_error] at h
    cases h
  | some dw =>
  cases h5 : fetchInts form tailIntFields with
  | error e =>
    rw [player_update_save_def, h1, ebind_ok, fetchRaw_some h2, ebind_ok,
      fetchRaw_some h3, ebind_ok, fetchRaw_some h4, ebind_ok, h5, ebind_error] at h
    cases h
  | ok tailVals =>
  rw [save_steps h1 h2 h3 h4 h5] at h
  cases h6 : notNullAll (notNullChecks (formatDateTime now) headVals pf aw dw
      tailVals) with
  | error e =>
    rw [h6, ebind_error] at h
    cases h
  | ok u =>
  cases u
  rw [h6, ebind_ok, if_neg (formatDateTime_ne_empty now)] at h
  by_cases h7 : pf ∈ (["left", "right", "none"] : List String)
  · rw [if_pos h7] at h
    exact ⟨headVals, pf, aw, dw, tailVals, rfl, rfl, rfl, rfl, rfl, h7,
      (Except.ok.inj h).symm⟩
  · rw [if_neg h7] at h
    cases h

/-- C4: on success, `player_update_save` appends exactly one new
Player_Attributes snapshot row — every pre-existing row of every table is
left untouched — and the new row is stamped with the formatted current
wall-clock time, which has second precision (it is independent of the
sub-second part of the instant). -/
theorem spec_c4 :
    (∀ (pid : String) (now : DateTime) (form : Form) (db db2 : DB),
      player_update_save pid now form db = .ok db2 →
      db2.players = db.players ∧
      db2.account = db.account ∧
      db2.depositor = db.depositor ∧
      db2.player_attributes.dropLast = db.player_attributes ∧
      db2.player_attributes.length = db.player_attributes.length + 1 ∧
      db2.player_attributes.getLast?.map AttrRow.date = some (formatDateTime now)) ∧
    (∀ t1 t2 : DateTime, t1.year = t2.year → t1.month = t2.month →
      t1.day = t2.day → t1.hour = t2.hour → t1.minute = t2.minute →
      t1.second = t2.second → formatDateTime t1 = formatDateTime t2) := by
  constructor
  · intro pid now form db db2 h
    obtain ⟨hv, pf, aw, dw, tv, _, _, _, _, _, _, hdb⟩ := player_update_save_ok_inv h
    subst hdb
    refine ⟨rfl, rfl, rfl, ?_, ?_, ?_⟩
    · simp
    · simp
    · simp
  · intro t1 t2 h1 h2 h3 h4 h5 h6
    unfold formatDateTime
    rw [h1, h2, h3, h4, h5, h6]

/-- The database produced by a valid update of player "p1" on an empty
database. -/
def dbAfter : DB :=
  ⟨[], [⟨"p1", "2024-05-17 12:30:45", List.replicate 35 50,
    "left", "medium", "medium"⟩], [], []⟩

/-- Witness for C4 at a concrete valid submission. -/
theorem spec_c4_witness :
    dbAfter.player_attributes.getLast?.map AttrRow.date =
      some (formatDateTime t0) :=
  (spec_c4.1 "p1" t0 sampleForm db0 dbAfter (by rfl)).2.2.2.2.2

theorem execDel_true {okd : DelStmt → DB → Bool} {s : DelStmt} {db : DB}
    (h : okd s db = true) :
    execDel okd s db = some (match s with
      | .depositor n => delDepositorRows n db
      | .account n => delAccountRows n db) := by
  unfold execDel
  rw [h]
  simp only [if_true]
  cases s <;> rfl

theorem execDel_false {okd : DelStmt → DB → Bool} {s : DelStmt} {db : DB}
    (h : okd s db = false) : execDel okd s db = none := by
  unfold execDel
  rw [h]
  simp

/-- C1: `account_delete` removes all depositor join rows for the account
number and then the account row, as one all-or-nothing transaction: on
commit both tables are filtered and the other tables are untouched, with
the depositor delete traced before the account delete; on any failure the
observable state is exactly the original one — no partial deletion. -/
theorem spec_c1 (okd : DelStmt → DB → Bool) (n : String) (db : DB) :
    ((account_delete okd n db).1.2.2 = true →
      (account_delete okd n db).1.1.depositor =
        db.depositor.filter (fun d => d.account_number != n) ∧
      (account_delete okd n db).1.1.account =
        db.account.filter (fun a => a.account_number != n) ∧
      (account_delete okd n db).1.1.players = db.players ∧
      (account_delete okd n db).1.1.player_attributes = db.player_attributes ∧
      (account_delete okd n db).1.2.1 = [.depositor n, .account n]) ∧
    ((account_delete okd n db).1.2.2 = false →
      (account_delete okd n db).1.1 = db ∧
      ((account_delete okd n db).1.2.1 = [DelStmt.depositor n] ∨
       (account_delete okd n db).1.2.1 = [DelStmt.depositor n, DelStmt.account n])) := by
  have hfst : (account_delete okd n db).1 = account_delete_txn okd n db := rfl
  cases h1 : okd (.depositor n) db with
  | false =>
    have htxn : account_delete_txn okd n db = (db, [.depositor n], false) := by
      unfold account_delete_txn
      rw [execDel_false h1]
    rw [hfst, htxn]
    constructor
    · intro hc
      simp at hc
    · intro hc2
      exact ⟨rfl, Or.inl rfl⟩
  | true =>
    cases h2 : okd (.account n) (delDepositorRows n db) with
    | false =>
      have htxn : account_delete_txn okd n db =
          (db, [.depositor n, .account n], false) := by
        unfold account_delete_txn
        rw [execDel_true h1]
        show (match execDel okd (.account n) (delDepositorRows n db) with
          | none => (db, [DelStmt.depositor n, DelStmt.account n], false)
          | some db3 => (db3, [DelStmt.depositor n, DelStmt.account n], true)) = _
        rw [execDel_false h2]
      rw [hfst, htxn]
      constructor
      · intro hc
        simp at hc
      · intro hc2
        exact ⟨rfl, Or.inr rfl⟩
    | true =>
      have htxn : account_delete_txn okd n db =
          (delAccountRows n (delDepositorRows n db),
            [.depositor n, .account n], true) := by
        unfold account_delete_txn
        rw [execDel_true h1]
        show (match execDel okd (.account n) (delDepositorRows n db) with
          | none => (db, [DelStmt.depositor n, DelStmt.account n], false)
          | some db3 => (db3, [DelStmt.depositor n, DelStmt.account n], true)) = _
        rw [execDel_true h2]
      rw [hfst, htxn]
      constructor
      · intro hc2
        refine ⟨?_, ?_, rfl, rfl, rfl⟩
        · simp [delAccountRows, delDepositorRows]
        · simp [delAccountRows, delDepositorRows]
      · intro hc
        simp at hc

/-- A database with one account and one depositor row for it. -/
def dbBank : DB := ⟨[], [], [⟨"a1"⟩, ⟨"a2"⟩], [⟨"cust", "a1"⟩]⟩

/-- Witness for C1: committed deletion of account "a1" on `dbBank`. -/
theorem spec_c1_witness :
    (account_delete (fun _ _ => true) "a1" dbBank).1.1.depositor =
      dbBank.depositor.filter (fun d => d.account_number != "a1") :=
  ((spec_c1 (fun _ _ => true) "a1" dbBank).1 (by rfl)).1

/-- A database whose account table does not contain account "999". -/
def dbC6 : DB := ⟨[], [], [⟨"a1"⟩], [⟨"cust", "a1"⟩]⟩

/-- C6 (code bug): deleting the non-existent account "999" runs both
deletes as a committed no-op — the state is unchanged and no delete
fails — but the handler then cannot redirect: no route named
`account_index` exists, so `url_for("account_index")` raises a
`BuildError` instead of redirecting to the account list. -/
theorem spec_c6_bug :
    url_for "account_index" = none ∧
    (account_delete (fun _ _ => true) "999" dbC6).1.1 = dbC6 ∧
    (account_delete (fun _ _ => true) "999" dbC6).1.2.2 = true ∧
    (account_delete (fun _ _ => true) "999" dbC6).2 = Response.buildError := by
  refine ⟨by rfl, by rfl, by rfl, by rfl⟩

/-- C7 counterexample: the routing table contains no GET route for the
update page — under either spelling of the path pattern — and its only
GET routes are the listing routes and the ping route. -/
theorem spec_c7_counterexample :
    routes.filter (fun r => r.method == Method.GET &&
        r.pattern == "/players/<player_api_id>/update") = [] ∧
    routes.filter (fun r => r.method == Method.GET &&
        r.pattern == "/players/<id>/update") = [] ∧
    routes.filter (fun r => r.method == Method.GET) =
      [⟨.GET, "/", "player_index"⟩, ⟨.GET, "/players", "player_index"⟩,
       ⟨.GET, "/ping", "ping"⟩] := by
  refine ⟨by rfl, by rfl, by rfl⟩

/-- C7 amended: the editing view is served only by the variant-B route
`POST /players/update` (endpoint `player_update_view`); the path
`/players/<player_api_id>/update` is routed only as POST, to
`player_update_save`, and no GET route serves the update page. -/
theorem spec_c7_amended :
    (⟨.POST, "/players/update", "player_update_view"⟩ : Route) ∈ routes ∧
    routes.filter (fun r => r.pattern == "/players/<player_api_id>/update") =
      [⟨.POST, "/players/<player_api_id>/update", "player_update_save"⟩] ∧
    routes.filter (fun r => r.method == Method.GET) =
      [⟨.GET, "/", "player_index"⟩, ⟨.GET, "/players", "player_index"⟩,
       ⟨.GET, "/ping", "ping"⟩] := by
  refine ⟨by decide, by rfl, by rfl⟩

/-- C9 counterexample to the field count: there are 35 integer skill
fields validated by `validate_integer`, not 36. -/
theorem spec_c9_counterexample :
    intFields.length = 35 ∧ intFields.length ≠ 36 := by
  refine ⟨by rfl, by decide⟩


theorem lexLe_nil (l : List Char) : lexLe [] l = true := by
  cases l <;> rfl

theorem lexLe_cons (a b : Char) (as bs : List Char) :
    lexLe (a :: as) (b :: bs) =
      if a.toNat < b.toNat then true
      else if b.toNat < a.toNat then false
      else lexLe as bs := rfl

theorem lexLe_refl (l : List Char) : lexLe l l = true := by
  induction l with
  | nil => rfl
  | cons a as ih =>
    rw [lexLe_cons]
    simp only [lt_self_iff_false, if_false]
    exact ih

theorem lexLe_total (as bs : List Char) :
    lexLe as bs = true ∨ lexLe bs as = true := by
  induction as generalizing bs with
  | nil => exact Or.inl (lexLe_nil bs)
  | cons a as ih =>
    cases bs with
    | nil => exact Or.inr (lexLe_nil _)
    | cons b bs =>
      rcases Nat.lt_trichotomy a.toNat b.toNat with h | h | h
      · exact Or.inl (by rw [lexLe_cons, if_pos h])
      · rcases ih bs with h2 | h2
        · refine Or.inl ?_
          rw [lexLe_cons, h]
          simp only [lt_self_iff_false, if_false]
          exact h2
        · refine Or.inr ?_
          rw [lexLe_cons, h]
          simp only [lt_self_iff_false, if_false]
          exact h2
      · exact Or.inr (by rw [lexLe_cons, if_pos h])

theorem lexLe_trans {as bs cs : List Char}
    (h1 : lexLe as bs = true) (h2 : lexLe bs cs = true) : lexLe as cs = true := by
  induction as generalizing bs cs with
  | nil => exact lexLe_nil cs
  | cons a as ih =>
    cases bs with
    | nil =>
      rw [show lexLe (a :: as) [] = false from rfl] at h1
      cases h1
    | cons b bs =>
      cases cs with
      | nil =>
        rw [show lexLe (b :: bs) [] = false from rfl] at h2
        cases h2
      | cons c cs =>
        rw [lexLe_cons] at h1 h2 ⊢
        rcases Nat.lt_trichotomy a.toNat b.toNat with hab | hab | hab
        · rcases Nat.lt_trichotomy b.toNat c.toNat with hbc | hbc | hbc
          · rw [if_pos (lt_trans hab hbc)]
          · rw [if_pos (show a.toNat < c.toNat by rw [← hbc]; exact hab)]
          · rw [if_neg (Nat.lt_asymm hbc), if_pos hbc] at h2
            cases h2
        · rcases Nat.lt_trichotomy b.toNat c.toNat with hbc | hbc | hbc
          · rw [if_pos (show a.toNat < c.toNat by rw [hab]; exact hbc)]
          · have hac : a.toNat = c.toNat := hab.trans hbc
            rw [hac]
            simp only [lt_self_iff_false, if_false]
            rw [hab] at h1
            rw [hbc] at h2
            simp only [lt_self_iff_false, if_false] at h1 h2
            exact ih h1 h2
          · rw [if_neg (Nat.lt_asymm hbc), if_pos hbc] at h2
            cases h2
        · rw [if_neg (Nat.lt_asymm hab), if_pos hab] at h1
          cases h1

theorem dateLe_refl (a : String) : dateLe a a = true := lexLe_refl a.data

theorem dateLe_total (a b : String) : dateLe a b = true ∨ dateLe b a = true :=
  lexLe_total a.data b.data

theorem dateLe_trans {a b c : String} (h1 : dateLe a b = true)
    (h2 : dateLe b c = true) : dateLe a c = true := lexLe_trans h1 h2

theorem foldl_laterRow_mem (r : JoinRow) (rs : List JoinRow) :
    rs.foldl laterRow r ∈ r :: rs := by
  induction rs generalizing r with
  | nil => simp
  | cons x rs ih =>
    have h := ih (laterRow r x)
    rw [List.foldl_cons]
    rcases List.mem_cons.mp h with h2 | h2
    · rw [h2]
      unfold laterRow
      cases hle : dateLe r.pa.date x.pa.date with
      | true => simp
      | false => simp
    · simp [h2]

theorem foldl_laterRow_le (r : JoinRow) (rs : List JoinRow) :
    dateLe r.pa.date (rs.foldl laterRow r).pa.date = true ∧
      ∀ x ∈ rs, dateLe x.pa.date (rs.foldl laterRow r).pa.date = true := by
  induction rs generalizing r with
  | nil => exact ⟨dateLe_refl _, by simp⟩
  | cons y rs ih =>
    obtain ⟨h1, h2⟩ := ih (laterRow r y)
    rw [List.foldl_cons]
    have hr : dateLe r.pa.date (laterRow r y).pa.date = true := by
      unfold laterRow
      cases hle : dateLe r.pa.date y.pa.date with
      | true => simpa using hle
      | false => simp [dateLe_refl]
    have hy : dateLe y.pa.date (laterRow r y).pa.date = true := by
      unfold laterRow
      cases hle : dateLe r.pa.date y.pa.date with
      | true => simp [dateLe_refl]
      | false =>
        simp only [hle, Bool.false_eq_true, if_false]
        rcases dateLe_total r.pa.date y.pa.date with h | h
        · rw [hle] at h
          cases h
        · exact h
    refine ⟨dateLe_trans hr h1, ?_⟩
    intro x hx
    rcases List.mem_cons.mp hx with h3 | h3
    · rw [h3]
      exact dateLe_trans hy h1
    · exact h2 x h3

/-- C8: the lookup of `player_update_view` returns at most one row; it is
empty exactly when the join has no row for the player (in particular when
the player has no snapshot), a returned row belongs to the join and has a
maximal date among all joined snapshots, and the handler leaves the
database unchanged. -/
theorem spec_c8 (pid : String) (db : DB) :
    (player_update_view pid db).2 = db ∧
    ((player_update_view pid db).1 = none ↔ joinRows pid db = []) ∧
    (db.player_attributes.filter (fun pa => pa.player_api_id == pid) = [] →
      (player_update_view pid db).1 = none) ∧
    (∀ r, (player_update_view pid db).1 = some r →
      r ∈ joinRows pid db ∧
        ∀ x ∈ joinRows pid db, dateLe x.pa.date r.pa.date = true) := by
  have hfst : (player_update_view pid db).1 = selectLatest (joinRows pid db) := rfl
  refine ⟨rfl, ?_, ?_, ?_⟩
  · rw [hfst]
    cases h : joinRows pid db with
    | nil => simp [selectLatest]
    | cons x rs => simp [selectLatest]
  · intro h
    rw [hfst]
    have hj : joinRows pid db = [] := by
      unfold joinRows
      rw [h]
      rfl
    rw [hj]
    rfl
  · intro r hrs
    rw [hfst] at hrs
    cases h : joinRows pid db with
    | nil =>
      rw [h] at hrs
      cases hrs
    | cons x rs =>
      rw [h] at hrs
      have hr : rs.foldl laterRow x = r := Option.some.inj hrs
      constructor
      · rw [← hr]
        exact foldl_laterRow_mem x rs
      · intro y hy
        obtain ⟨h1, h2⟩ := foldl_laterRow_le x rs
        rcases List.mem_cons.mp hy with h3 | h3
        · rw [h3, ← hr]
          exact h1
        · rw [← hr]
          exact h2 y h3

/-- Two snapshots of player "p1"; `rowB` is the more recent one. -/
def rowA : AttrRow := ⟨"p1", "2016-01-01 10:00:00", [], "left", "high", "low"⟩

/-- The later snapshot of player "p1". -/
def rowB : AttrRow := ⟨"p1", "2016-02-01 10:00:00", [], "right", "low", "high"⟩

/-- A database holding player "p1" with two snapshots. -/
def dbView : DB := ⟨[⟨"p1", "Alice"⟩], [rowA, rowB], [], []⟩

/-- Witness for C8: on `dbView`, the lookup returns the later snapshot,
which belongs to the join row set. -/
theorem spec_c8_witness : (⟨rowB, "Alice"⟩ : JoinRow) ∈ joinRows "p1" dbView :=
  ((spec_c8 "p1" dbView).2.2.2 ⟨rowB, "Alice"⟩ (by rfl)).1

/-- The three raw text fields, in validation order. -/
def textFields : List String :=
  ["preferred_foot", "attacking_work_rate", "defensive_work_rate"]

/-- Decidable check behind `presentIn`. -/
def presentCheck (form : Form) (j : String) : Bool := (form.get? j).isSome

/-- Decidable check behind `parses`. -/
def intCheck (form : Form) (j : String) : Bool :=
  match form.get? j with
  | some s => (pyIntOfString s).isSome
  | none => false

theorem presentIn_of_check {form : Form} {j : String}
    (h : presentCheck form j = true) : presentIn form j := by
  unfold presentCheck at h
  rcases hopt : form.get? j with _ | s
  · rw [hopt] at h
    cases h
  · exact ⟨s, hopt⟩

theorem parses_of_check {form : Form} {j : String}
    (h : intCheck form j = true) : parses form j := by
  unfold intCheck at h
  rcases hopt : form.get? j with _ | s <;> rw [hopt] at h
  · cases h
  · have h2 : (pyIntOfString s).isSome = true := h
    rcases hn : pyIntOfString s with _ | n <;> rw [hn] at h2
    · cases h2
    · exact ⟨s, n, hopt, hn⟩

theorem mem_of_takeWhile {p : String → Bool} {l : List String} {x : String}
    (h : x ∈ l.takeWhile p) : x ∈ l := by
  induction l with
  | nil => simp at h
  | cons a l ih =>
    rw [List.takeWhile_cons] at h
    cases hpa : p a with
    | false =>
      rw [hpa] at h
      simp at h
    | true =>
      rw [hpa] at h
      simp only [if_pos rfl] at h
      rcases List.mem_cons.mp h with h2 | h2
      · simp [h2]
      · simp [ih h2]

theorem pyInt_none_of_strip_empty {s : String} (h : pyStrip s = "") :
    pyIntOfString s = none := by
  have h2 : stripWs s.data = [] := congrArg String.data h
  unfold pyIntOfString pyIntOfChars
  rw [h2]

example : pyStrip " " = "" := by rfl
example : pyStrip "  " = "" := by rfl

/-- Core failure lemma shared by C2 and C3: when every form field is
present and `k` is the first integer field whose value does not parse,
the handler stops with the "must be an integer" error naming `k`, before
the insert. -/
theorem save_int_error {pid : String} {now : DateTime} {form : Form} {db : DB}
    {k s : String}
    (hp : ∀ j ∈ allFormFields, presentIn form j)
    (hk : k ∈ intFields)
    (hbefore : ∀ j ∈ intFields.takeWhile (fun x => x != k), parses form j)
    (hs : form.get? k = some s) (hn : pyIntOfString s = none) :
    player_update_save pid now form db = .error (.validation k .mustBeInteger) := by
  have hsplit : intFields = headIntFields ++ tailIntFields := rfl
  by_cases hkh : k ∈ headIntFields
  · have htw : intFields.takeWhile (fun x => x != k) =
        headIntFields.takeWhile (fun x => x != k) := by
      rw [hsplit]
      exact takeWhile_append_of_mem _ hkh
    have herr : fetchInts form headIntFields = .error (.validation k .mustBeInteger) :=
      fetchInts_error_first hkh (fun j hj => hbefore j (by rw [htw]; exact hj)) hs hn
    rw [player_update_save_def, herr, ebind_error]
  · have hkt : k ∈ tailIntFields := by
      rw [hsplit] at hk
      rcases List.mem_append.mp hk with h | h
      · exact absurd h hkh
      · exact h
    have hheads_ne : ∀ x ∈ headIntFields, x ≠ k := by
      intro x hx he
      exact hkh (he ▸ hx)
    have htw : intFields.takeWhile (fun x => x != k) =
        headIntFields ++ tailIntFields.takeWhile (fun x => x != k) := by
      rw [hsplit]
      exact takeWhile_append_of_all _ hheads_ne
    have hheadsok : ∀ j ∈ headIntFields, parses form j := by
      intro j hj
      exact hbefore j (by rw [htw]; exact List.mem_append.mpr (Or.inl hj))
    obtain ⟨hv, hhv⟩ := fetchInts_ok_of_parses hheadsok
    obtain ⟨pfv, hpf⟩ := hp "preferred_foot" (by decide)
    obtain ⟨awv, haw⟩ := hp "attacking_work_rate" (by decide)
    obtain ⟨dwv, hdw⟩ := hp "defensive_work_rate" (by decide)
    have htailerr : fetchInts form tailIntFields =
        .error (.validation k .mustBeInteger) :=
      fetchInts_error_first hkt
        (fun j hj => hbefore j (by rw [htw]; exact List.mem_append.mpr (Or.inr hj)))
        hs hn
    rw [player_update_save_def, hhv, ebind_ok, fetchRaw_some hpf, ebind_ok,
      fetchRaw_some haw, ebind_ok, fetchRaw_some hdw, ebind_ok, htailerr, ebind_error]

theorem intCheck_false_of_bad {form : Form} {k s : String}
    (hs : form.get? k = some s) (hn : pyIntOfString s = none) :
    intCheck form k = false := by
  unfold intCheck
  rw [hs]
  show (pyIntOfString s).isSome = false
  rw [hn]
  rfl

theorem exists_first_bad {form : Form} {ks : List String} {k : String}
    (hk : k ∈ ks) (hbad : intCheck form k = false) :
    ∃ g, g ∈ ks ∧ intCheck form g = false ∧
      ∀ j ∈ ks.takeWhile (fun x => x != g), intCheck form j = true := by
  induction ks with
  | nil => cases hk
  | cons a ks ih =>
    cases ha : intCheck form a with
    | false =>
      refine ⟨a, by simp, ha, ?_⟩
      intro j hj
      rw [List.takeWhile_cons, bne_self_eq_false] at hj
      simp at hj
    | true =>
      have hka : k ≠ a := fun he => by rw [he, ha] at hbad; cases hbad
      have hkks : k ∈ ks := by
        rcases List.mem_cons.mp hk with h2 | h2
        · exact absurd h2 hka
        · exact h2
      obtain ⟨g, hg1, hg2, hg3⟩ := ih hkks
      have hag : a ≠ g := fun he => by rw [← he, ha] at hg2; cases hg2
      refine ⟨g, by simp [hg1], hg2, ?_⟩
      intro j hj
      rw [List.takeWhile_cons, bne_iff_ne.mpr hag] at hj
      simp only [if_pos rfl] at hj
      rcases List.mem_cons.mp hj with h2 | h2
      · rw [h2]
        exact ha
      · exact hg3 j h2

theorem bad_of_intCheck_false {form : Form} {k : String}
    (hp : presentIn form k) (h : intCheck form k = false) :
    ∃ s, form.get? k = some s ∧ pyIntOfString s = none := by
  obtain ⟨s, hs⟩ := hp
  unfold intCheck at h
  rw [hs] at h
  have h2 : (pyIntOfString s).isSome = false := h
  rcases hn : pyIntOfString s with _ | n
  · exact ⟨s, hs, hn⟩
  · rw [hn] at h2
    cases h2

/-- C2: for a form submission (all fields present) in which some integer
skill field holds a string that Python's `int` rejects, the handler fails
with the "must be an integer" `ValidationError` naming such a field
(never reaching the insert); and the named field is exactly `k` whenever
`k` is the first non-parsing integer field in validation order. -/
theorem spec_c2 :
    (∀ (pid : String) (now : DateTime) (form : Form) (db : DB) (k s : String),
      (∀ j ∈ allFormFields, presentIn form j) →
      k ∈ intFields → form.get? k = some s → pyIntOfString s = none →
      ∃ g s2, g ∈ intFields ∧ form.get? g = some s2 ∧ pyIntOfString s2 = none ∧
        player_update_save pid now form db =
          .error (.validation g .mustBeInteger)) ∧
    (∀ (pid : String) (now : DateTime) (form : Form) (db : DB) (k s : String),
      (∀ j ∈ allFormFields, presentIn form j) →
      k ∈ intFields →
      (∀ j ∈ intFields.takeWhile (fun x => x != k), parses form j) →
      form.get? k = some s → pyIntOfString s = none →
      player_update_save pid now form db =
        .error (.validation k .mustBeInteger)) := by
  constructor
  · intro pid now form db k s hp hk hs hn
    obtain ⟨g, hg1, hg2, hg3⟩ := exists_first_bad hk (intCheck_false_of_bad hs hn)
    have hgmem : g ∈ allFormFields := by
      rw [show allFormFields =
        (headIntFields ++ textFields) ++ tailIntFields from rfl]
      rcases List.mem_append.mp (show g ∈ headIntFields ++ tailIntFields from hg1)
        with h2 | h2
      · exact List.mem_append.mpr
          (Or.inl (List.mem_append.mpr (Or.inl h2)))
      · exact List.mem_append.mpr (Or.inr h2)
    obtain ⟨s2, hs2, hn2⟩ := bad_of_intCheck_false (hp g hgmem) hg2
    exact ⟨g, s2, hg1, hs2, hn2,
      save_int_error hp hg1 (fun j hj => parses_of_check (hg3 j hj)) hs2 hn2⟩
  · intro pid now form db k s hp hk hbefore hs hn
    exact save_int_error hp hk hbefore hs hn

/-- Witness for C2: the submission with `crossing = "abc"`. -/
theorem spec_c2_witness :
    player_update_save "p7" t0 (formWith "crossing" "abc") db0 =
      .error (.validation "crossing" .mustBeInteger) := by
  refine spec_c2.2 "p7" t0 (formWith "crossing" "abc") db0 "crossing" "abc"
    ?_ (by decide) ?_ (by rfl) (by rfl)
  · intro j hj
    exact presentIn_of_check
      ((by decide : ∀ j ∈ allFormFields,
        presentCheck (formWith "crossing" "abc") j = true) j hj)
  · intro j hj
    exact parses_of_check
      ((by decide : ∀ j ∈ intFields.takeWhile (fun x => x != "crossing"),
        intCheck (formWith "crossing" "abc") j = true) j hj)

theorem mem_intFields_of_head {j : String} (hj : j ∈ headIntFields) :
    j ∈ intFields := by
  show j ∈ headIntFields ++ tailIntFields
  exact List.mem_append.mpr (Or.inl hj)

theorem mem_intFields_of_tail {j : String} (hj : j ∈ tailIntFields) :
    j ∈ intFields := by
  show j ∈ headIntFields ++ tailIntFields
  exact List.mem_append.mpr (Or.inr hj)

/-- C3 core, missing-field path: when field `k` is absent from the form
and every field read before it is valid, the handler stops with Flask's
`BadRequestKeyError` naming `k` — not with a ValidationError. -/
theorem save_missing_error {pid : String} {now : DateTime} {form : Form} {db : DB}
    {k : String}
    (hk : k ∈ allFormFields) (hmiss : form.get? k = none)
    (hb1 : ∀ j ∈ allFormFields.takeWhile (fun x => x != k), presentIn form j)
    (hb2 : ∀ j ∈ allFormFields.takeWhile (fun x => x != k),
      j ∈ intFields → parses form j) :
    player_update_save pid now form db = .error (.badRequestKey k) := by
  have hall : allFormFields = (headIntFields ++ textFields) ++ tailIntFields := rfl
  by_cases hkh : k ∈ headIntFields
  · have htw : allFormFields.takeWhile (fun x => x != k) =
        headIntFields.takeWhile (fun x => x != k) := by
      rw [hall, takeWhile_append_of_mem _ (List.mem_append.mpr (Or.inl hkh)),
        takeWhile_append_of_mem _ hkh]
    have herr : fetchInts form headIntFields = .error (.badRequestKey k) :=
      fetchInts_error_missing hkh
        (fun j hj => hb2 j (by rw [htw]; exact hj)
          (mem_intFields_of_head (mem_of_takeWhile hj)))
        hmiss
    rw [player_update_save_def, herr, ebind_error]
  · by_cases hktx : k ∈ textFields
    · have hheads : ∀ j ∈ headIntFields, parses form j := by
        intro j hj
        have hmem : j ∈ allFormFields.takeWhile (fun x => x != k) := by
          rcases (by simpa [textFields] using hktx :
            k = "preferred_foot" ∨ k = "attacking_work_rate" ∨
              k = "defensive_work_rate") with rfl | rfl | rfl <;>
            rcases (by simpa [headIntFields] using hj :
              j = "overall_rating" ∨ j = "potential") with rfl | rfl <;> decide
        exact hb2 j hmem (mem_intFields_of_head hj)
      obtain ⟨hv, hhv⟩ := fetchInts_ok_of_parses hheads
      rcases (by simpa [textFields] using hktx :
        k = "preferred_foot" ∨ k = "attacking_work_rate" ∨
          k = "defensive_work_rate") with rfl | rfl | rfl
      · rw [player_update_save_def, hhv, ebind_ok, fetchRaw_none hmiss, ebind_error]
      · obtain ⟨pfv, hpf⟩ := hb1 "preferred_foot" (by decide)
        rw [player_update_save_def, hhv, ebind_ok, fetchRaw_some hpf, ebind_ok,
          fetchRaw_none hmiss, ebind_error]
      · obtain ⟨pfv, hpf⟩ := hb1 "preferred_foot" (by decide)
        obtain ⟨awv, haw⟩ := hb1 "attacking_work_rate" (by decide)
        rw [player_update_save_def, hhv, ebind_ok, fetchRaw_some hpf, ebind_ok,
          fetchRaw_some haw, ebind_ok, fetchRaw_none hmiss, ebind_error]
    · have hkt : k ∈ tailIntFields := by
        rw [hall] at hk
        rcases List.mem_append.mp hk with h | h
        · rcases List.mem_append.mp h with h2 | h2
          · exact absurd h2 hkh
          · exact absurd h2 hktx
        · exact h
      have hne : ∀ x ∈ headIntFields ++ textFields, x ≠ k := by
        intro x hx he
        rcases List.mem_append.mp hx with h2 | h2
        · exact hkh (he ▸ h2)
        · exact hktx (he ▸ h2)
      have htw : allFormFields.takeWhile (fun x => x != k) =
          (headIntFields ++ textFields) ++
            tailIntFields.takeWhile (fun x => x != k) := by
        rw [hall]
        exact takeWhile_append_of_all _ hne
      have hheads : ∀ j ∈ headIntFields, parses form j := by
        intro j hj
        refine hb2 j ?_ (mem_intFields_of_head hj)
        rw [htw]
        exact List.mem_append.mpr (Or.inl (List.mem_append.mpr (Or.inl hj)))
      obtain ⟨hv, hhv⟩ := fetchInts_ok_of_parses hheads
      have htxmem : ∀ j ∈ textFields, j ∈ allFormFields.takeWhile (fun x => x != k) := by
        intro j hj
        rw [htw]
        exact List.mem_append.mpr (Or.inl (List.mem_append.mpr (Or.inr hj)))
      obtain ⟨pfv, hpf⟩ := hb1 "preferred_foot" (htxmem _ (by decide))
      obtain ⟨awv, haw⟩ := hb1 "attacking_work_rate" (htxmem _ (by decide))
      obtain ⟨dwv, hdw⟩ := hb1 "defensive_work_rate" (htxmem _ (by decide))
      have htailerr : fetchInts form tailIntFields = .error (.badRequestKey k) :=
        fetchInts_error_missing hkt
          (fun j hj => hb2 j (by rw [htw]; exact List.mem_append.mpr (Or.inr hj))
            (mem_intFields_of_tail (mem_of_takeWhile hj)))
          hmiss
      rw [player_update_save_def, hhv, ebind_ok, fetchRaw_some hpf, ebind_ok,
        fetchRaw_some haw, ebind_ok, fetchRaw_some hdw, ebind_ok, htailerr,
        ebind_error]

/-- C3 core, empty-text path: when all fields are present, the integer
fields parse, and `k` is the first of the three raw text fields whose
value is empty after stripping, the handler fails with "`k` is
required.". -/
theorem save_required_error {pid : String} {now : DateTime} {form : Form} {db : DB}
    {k s : String}
    (hallp : ∀ j ∈ allFormFields, presentIn form j)
    (hint : ∀ j ∈ intFields, parses form j)
    (hk : k ∈ textFields)
    (hbefore : ∀ j ∈ textFields.takeWhile (fun x => x != k),
      ∃ s2, form.get? j = some s2 ∧ pyStrip s2 ≠ "")
    (hs : form.get? k = some s) (hstrip : pyStrip s = "") :
    player_update_save pid now form db = .error (.validation k .isRequired) := by
  obtain ⟨hv, hhv⟩ :=
    fetchInts_ok_of_parses (fun j hj => hint j (mem_intFields_of_head hj))
  obtain ⟨tv, htv⟩ :=
    fetchInts_ok_of_parses (fun j hj => hint j (mem_intFields_of_tail hj))
  obtain ⟨pfv, hpf⟩ := hallp "preferred_foot" (by decide)
  obtain ⟨awv, haw⟩ := hallp "attacking_work_rate" (by decide)
  obtain ⟨dwv, hdw⟩ := hallp "defensive_work_rate" (by decide)
  rw [save_steps hhv hpf haw hdw htv]
  rcases (by simpa [textFields] using hk :
    k = "preferred_foot" ∨ k = "attacking_work_rate" ∨
      k = "defensive_work_rate") with rfl | rfl | rfl
  · have hstrip2 : pyStrip pfv = "" := by
      rw [Option.some.inj (hpf.symm.trans hs)]
      exact hstrip
    have hlist : notNullChecks (formatDateTime now) hv pfv awv dwv tv =
        (("date", Value.str (formatDateTime now)) ::
          headIntFields.zip (hv.map Value.int)) ++
        ("preferred_foot", Value.str pfv) ::
          (("attacking_work_rate", Value.str awv) ::
           ("defensive_work_rate", Value.str dwv) ::
           tailIntFields.zip (tv.map Value.int)) := by
      simp [notNullChecks]
    have hp1 : ∀ e ∈ ("date", Value.str (formatDateTime now)) ::
        headIntFields.zip (hv.map Value.int), passesNotNull e.2 := by
      intro e he
      rcases List.mem_cons.mp he with he2 | he2
      · rw [he2]
        exact pyStrip_formatDateTime_ne_empty now
      · obtain ⟨n, hn⟩ := snd_of_mem_zip_int he2
        rw [hn]
        trivial
    rw [hlist, notNullAll_error_first hp1 hstrip2, ebind_error]
  · have hstrip2 : pyStrip awv = "" := by
      rw [Option.some.inj (haw.symm.trans hs)]
      exact hstrip
    obtain ⟨s2, hs2, hne2⟩ := hbefore "preferred_foot" (by decide)
    have hpfv2 : pyStrip pfv ≠ "" := by
      rw [Option.some.inj (hpf.symm.trans hs2)]
      exact hne2
    have hlist : notNullChecks (formatDateTime now) hv pfv awv dwv tv =
        (("date", Value.str (formatDateTime now)) ::
          (headIntFields.zip (hv.map Value.int) ++
            [("preferred_foot", Value.str pfv)])) ++
        ("attacking_work_rate", Value.str awv) ::
          (("defensive_work_rate", Value.str dwv) ::
           tailIntFields.zip (tv.map Value.int)) := by
      simp [notNullChecks]
    have hp1 : ∀ e ∈ ("date", Value.str (formatDateTime now)) ::
        (headIntFields.zip (hv.map Value.int) ++
          [("preferred_foot", Value.str pfv)]), passesNotNull e.2 := by
      intro e he
      rcases List.mem_cons.mp he with he2 | he2
      · rw [he2]
        exact pyStrip_formatDateTime_ne_empty now
      · rcases List.mem_append.mp he2 with he3 | he3
        · obtain ⟨n, hn⟩ := snd_of_mem_zip_int he3
          rw [hn]
          trivial
        · rw [show e = ("preferred_foot", Value.str pfv) by simpa using he3]
          exact hpfv2
    rw [hlist, notNullAll_error_first hp1 hstrip2, ebind_error]
  · have hstrip2 : pyStrip dwv = "" := by
      rw [Option.some.inj (hdw.symm.trans hs)]
      exact hstrip
    obtain ⟨s2, hs2, hne2⟩ := hbefore "preferred_foot" (by decide)
    have hpfv2 : pyStrip pfv ≠ "" := by
      rw [Option.some.inj (hpf.symm.trans hs2)]
      exact hne2
    obtain ⟨s3, hs3, hne3⟩ := hbefore "attacking_work_rate" (by decide)
    have hawv2 : pyStrip awv ≠ "" := by
      rw [Option.some.inj (haw.symm.trans hs3)]
      exact hne3
    have hlist : notNullChecks (formatDateTime now) hv pfv awv dwv tv =
        (("date", Value.str (formatDateTime now)) ::
          (headIntFields.zip (hv.map Value.int) ++
            [("preferred_foot", Value.str pfv),
             ("attacking_work_rate", Value.str awv)])) ++
        ("defensive_work_rate", Value.str dwv) ::
          tailIntFields.zip (tv.map Value.int) := by
      simp [notNullChecks]
    have hp1 : ∀ e ∈ ("date", Value.str (formatDateTime now)) ::
        (headIntFields.zip (hv.map Value.int) ++
          [("preferred_foot", Value.str pfv),
           ("attacking_work_rate", Value.str awv)]), passesNotNull e.2 := by
      intro e he
      rcases List.mem_cons.mp he with he2 | he2
      · rw [he2]
        exact pyStrip_formatDateTime_ne_empty now
      · rcases List.mem_append.mp he2 with he3 | he3
        · obtain ⟨n, hn⟩ := snd_of_mem_zip_int he3
          rw [hn]
          trivial
        · rcases (by simpa using he3 :
            e = ("preferred_foot", Value.str pfv) ∨
              e = ("attacking_work_rate", Value.str awv)) with he4 | he4
          · rw [he4]
            exact hpfv2
          · rw [he4]
            exact hawv2
    rw [hlist, notNullAll_error_first hp1 hstrip2, ebind_error]

/-- C3 amended: fields are required in effect, but the failure mode
depends on the field.  (1) A field absent from the form makes the
handler fail with a bad-request key error naming that field, not a
ValidationError.  (2) A present integer field empty after stripping
fails with "must be an integer", not "is required".  (3) Only the three
raw text fields fail with "is required" when present but empty after
stripping.  In each part the fields read earlier by the handler are
assumed valid, so the named field is the first offending one. -/
theorem spec_c3 :
    (∀ (pid : String) (now : DateTime) (form : Form) (db : DB) (k : String),
      k ∈ allFormFields → form.get? k = none →
      (∀ j ∈ allFormFields.takeWhile (fun x => x != k), presentIn form j) →
      (∀ j ∈ allFormFields.takeWhile (fun x => x != k),
        j ∈ intFields → parses form j) →
      player_update_save pid now form db = .error (.badRequestKey k)) ∧
    (∀ (pid : String) (now : DateTime) (form : Form) (db : DB) (k s : String),
      (∀ j ∈ allFormFields, presentIn form j) →
      k ∈ intFields →
      (∀ j ∈ intFields.takeWhile (fun x => x != k), parses form j) →
      form.get? k = some s → pyStrip s = "" →
      player_update_save pid now form db = .error (.validation k .mustBeInteger)) ∧
    (∀ (pid : String) (now : DateTime) (form : Form) (db : DB) (k s : String),
      (∀ j ∈ allFormFields, presentIn form j) →
      (∀ j ∈ intFields, parses form j) →
      k ∈ textFields →
      (∀ j ∈ textFields.takeWhile (fun x => x != k),
        ∃ s2, form.get? j = some s2 ∧ pyStrip s2 ≠ "") →
      form.get? k = some s → pyStrip s = "" →
      player_update_save pid now form db = .error (.validation k .isRequired)) := by
  refine ⟨?_, ?_, ?_⟩
  · intro pid now form db k hk hmiss hb1 hb2
    exact save_missing_error hk hmiss hb1 hb2
  · intro pid now form db k s hp hk hbefore hs hstrip
    exact save_int_error hp hk hbefore hs (pyInt_none_of_strip_empty hstrip)
  · intro pid now form db k s hallp hint hk hbefore hs hstrip
    exact save_required_error hallp hint hk hbefore hs hstrip

/-- C3 counterexample: with `overall_rating` absent (and every other
field valid), the handler fails with Flask's `BadRequestKeyError`, which
is not the `ValidationError` "overall_rating is required" the claim
predicts. -/
theorem spec_c3_counterexample :
    (formWithout "overall_rating").get? "overall_rating" = none ∧
    player_update_save "p7" t0 (formWithout "overall_rating") db0 =
      .error (.badRequestKey "overall_rating") ∧
    HandlerErr.badRequestKey "overall_rating" ≠
      HandlerErr.validation "overall_rating" Rule.isRequired := by
  refine ⟨by rfl, by rfl, by decide⟩

/-- Witness for C3 (amended), part 3: an empty `preferred_foot` fails
with "preferred_foot is required.". -/
theorem spec_c3_witness :
    player_update_save "p7" t0 (formWith "preferred_foot" " ") db0 =
      .error (.validation "preferred_foot" .isRequired) := by
  refine spec_c3.2.2 "p7" t0 (formWith "preferred_foot" " ") db0
    "preferred_foot" " " ?_ ?_ (by decide) ?_ (by rfl) (by rfl)
  · intro j hj
    exact presentIn_of_check
      ((by decide : ∀ j ∈ allFormFields,
        presentCheck (formWith "preferred_foot" " ") j = true) j hj)
  · intro j hj
    exact parses_of_check
      ((by decide : ∀ j ∈ intFields,
        intCheck (formWith "preferred_foot" " ") j = true) j hj)
  · intro j hj
    rw [show textFields.takeWhile (fun x => x != "preferred_foot") = [] from rfl] at hj
    cases hj

/-- C5 amended: a `preferred_foot` value outside {left, right, none}
always makes the handler fail — the ok branch (and hence the insert) is
unreachable — and, when every other field is valid, the failure is a
ValidationError on `preferred_foot`: the "is required" rule when the
value is empty after trimming (the not-null check at source line 190
runs before the enumeration check at line 236), and the "must be one
of" enumeration rule otherwise. -/
theorem spec_c5 :
    (∀ (pid : String) (now : DateTime) (form : Form) (db : DB) (v : String),
      form.get? "preferred_foot" = some v →
      v ∉ (["left", "right", "none"] : List String) →
      exceptIsOk (player_update_save pid now form db) = false) ∧
    (∀ (pid : String) (now : DateTime) (form : Form) (db : DB) (v : String),
      (∀ j ∈ allFormFields, presentIn form j) →
      (∀ j ∈ intFields, parses form j) →
      form.get? "preferred_foot" = some v →
      pyStrip v ≠ "" →
      (∃ s2, form.get? "attacking_work_rate" = some s2 ∧ pyStrip s2 ≠ "") →
      (∃ s2, form.get? "defensive_work_rate" = some s2 ∧ pyStrip s2 ≠ "") →
      v ∉ (["left", "right", "none"] : List String) →
      player_update_save pid now form db =
        .error (.validation "preferred_foot" .mustBeOneOf)) ∧
    (∀ (pid : String) (now : DateTime) (form : Form) (db : DB) (v : String),
      (∀ j ∈ allFormFields, presentIn form j) →
      (∀ j ∈ intFields, parses form j) →
      form.get? "preferred_foot" = some v →
      pyStrip v = "" →
      v ∉ (["left", "right", "none"] : List String) →
      player_update_save pid now form db =
        .error (.validation "preferred_foot" .isRequired)) := by
  refine ⟨?_, ?_, ?_⟩
  · intro pid now form db v hv hnot
    cases hres : player_update_save pid now form db with
    | error e => rfl
    | ok db2 =>
      obtain ⟨_, pf, _, _, _, _, hpf, _, _, _, hmem, _⟩ :=
        player_update_save_ok_inv hres
      rw [hv] at hpf
      exact absurd (Option.some.inj hpf ▸ hmem) hnot
  · intro pid now form db v hallp hint hpfv hpfne haw2 hdw2 hnot
    obtain ⟨hv, hhv⟩ :=
      fetchInts_ok_of_parses (fun j hj => hint j (mem_intFields_of_head hj))
    obtain ⟨tv, htv⟩ :=
      fetchInts_ok_of_parses (fun j hj => hint j (mem_intFields_of_tail hj))
    obtain ⟨awv, haw, hawne⟩ := haw2
    obtain ⟨dwv, hdw, hdwne⟩ := hdw2
    rw [save_steps hhv hpfv haw hdw htv]
    have hnn : notNullAll (notNullChecks (formatDateTime now) hv v awv dwv tv) =
        .ok () := by
      refine notNullAll_ok ?_
      intro e he
      rcases (by simpa [notNullChecks, List.mem_append, List.mem_cons] using he :
        e = ("date", Value.str (formatDateTime now)) ∨
        e ∈ headIntFields.zip (hv.map Value.int) ∨
        e = ("preferred_foot", Value.str v) ∨
        e = ("attacking_work_rate", Value.str awv) ∨
        e = ("defensive_work_rate", Value.str dwv) ∨
        e ∈ tailIntFields.zip (tv.map Value.int)) with
        h1 | h1 | h1 | h1 | h1 | h1
      · rw [h1]
        exact pyStrip_formatDateTime_ne_empty now
      · obtain ⟨n, hn⟩ := snd_of_mem_zip_int h1
        rw [hn]
        trivial
      · rw [h1]
        exact hpfne
      · rw [h1]
        exact hawne
      · rw [h1]
        exact hdwne
      · obtain ⟨n, hn⟩ := snd_of_mem_zip_int h1
        rw [hn]
        trivial
    rw [hnn, ebind_ok, if_neg (formatDateTime_ne_empty now), if_neg hnot]
  · intro pid now form db v hallp hint hpfv hstrip hnot
    refine save_required_error hallp hint (by decide) ?_ hpfv hstrip
    intro j hj
    rw [show textFields.takeWhile (fun x => x != "preferred_foot") = [] from rfl] at hj
    cases hj

/-- A valid submission with two fields overridden. -/
def formWith2 (k1 v1 k2 v2 : String) : Form :=
  ⟨(formWith k1 v1).entries.map (fun e => if e.1 = k2 then (e.1, v2) else e)⟩

/-- C5 counterexample: with `preferred_foot = "middle"` and also
`overall_rating = "abc"`, the handler's failure is the integer error on
`overall_rating` — not a ValidationError for `preferred_foot`. -/
theorem spec_c5_counterexample :
    (formWith2 "preferred_foot" "middle" "overall_rating" "abc").get?
        "preferred_foot" = some "middle" ∧
    ("middle" : String) ∉ (["left", "right", "none"] : List String) ∧
    player_update_save "p7" t0
        (formWith2 "preferred_foot" "middle" "overall_rating" "abc") db0 =
      .error (.validation "overall_rating" .mustBeInteger) ∧
    HandlerErr.validation "overall_rating" Rule.mustBeInteger ≠
      HandlerErr.validation "preferred_foot" Rule.mustBeOneOf ∧
    HandlerErr.validation "overall_rating" Rule.mustBeInteger ≠
      HandlerErr.validation "preferred_foot" Rule.isRequired := by
  refine ⟨by rfl, by decide, by rfl, by decide, by decide⟩

/-- Witness for C5 (amended) at `preferred_foot = "middle"`. -/
theorem spec_c5_witness :
    player_update_save "p7" t0 (formWith "preferred_foot" "middle") db0 =
      .error (.validation "preferred_foot" .mustBeOneOf) := by
  refine spec_c5.2.1 "p7" t0 (formWith "preferred_foot" "middle") db0 "middle"
    ?_ ?_ (by rfl) (by decide) ⟨"medium", by rfl, by decide⟩
    ⟨"medium", by rfl, by decide⟩ (by decide)
  · intro j hj
    exact presentIn_of_check
      ((by decide : ∀ j ∈ allFormFields,
        presentCheck (formWith "preferred_foot" "middle") j = true) j hj)
  · intro j hj
    exact parses_of_check
      ((by decide : ∀ j ∈ intFields,
        intCheck (formWith "preferred_foot" "middle") j = true) j hj)

/-- C9 amended: `validate_not_null` can never fail on a value returned by
`validate_integer` (there are 35 such integer skill fields, not 36) nor
on the computed date string, so an "is required" ValidationError can only
name `preferred_foot`, `attacking_work_rate` or `defensive_work_rate`. -/
theorem spec_c9 :
    (∀ (n : Int) (f : String), validate_not_null (.int n) f = .ok ()) ∧
    (∀ (now : DateTime) (f : String),
      validate_not_null (.str (formatDateTime now)) f = .ok ()) ∧
    (∀ (pid : String) (now : DateTime) (form : Form) (db : DB) (f : String),
      player_update_save pid now form db = .error (.validation f .isRequired) →
      f = "preferred_foot" ∨ f = "attacking_work_rate" ∨
        f = "defensive_work_rate") := by
  refine ⟨fun n f => rfl,
    fun now f => validate_not_null_ok (pyStrip_formatDateTime_ne_empty now), ?_⟩
  intro pid now form db f h
  cases h1 : fetchInts form headIntFields with
  | error e =>
    rw [player_update_save_def, h1, ebind_error] at h
    have he : e = .validation f .isRequired := Except.error.inj h
    rcases fetchInts_error_inv h1 with ⟨k2, hk2⟩ | ⟨k2, hk2⟩
    · have hc := he.symm.trans hk2
      simp at hc
    · have hc := he.symm.trans hk2
      simp at hc
  | ok headVals =>
  cases h2 : form.get? "preferred_foot" with
  | none =>
    rw [player_update_save_def, h1, ebind_ok, fetchRaw_none h2, ebind_error] at h
    have he := Except.error.inj h
    simp at he
  | some pf =>
  cases h3 : form.get? "attacking_work_rate" with
  | none =>
    rw [player_update_save_def, h1, ebind_ok, fetchRaw_some h2, ebind_ok,
      fetchRaw_none h3, ebind_error] at h
    have he := Except.error.inj h
    simp at he
  | some aw =>
  cases h4 : form.get? "defensive_work_rate" with
  | none =>
    rw [player_update_save_def, h1, ebind_ok, fetchRaw_some h2, ebind_ok,
      fetchRaw_some h3, ebind_ok, fetchRaw_none h4, ebind_error] at h
    have he := Except.error.inj h
    simp at he
  | some dw =>
  cases h5 : fetchInts form tailIntFields with
  | error e =>
    rw [player_update_save_def, h1, ebind_ok, fetchRaw_some h2, ebind_ok,
      fetchRaw_some h3, ebind_ok, fetchRaw_some h4, ebind_ok, h5, ebind_error] at h
    have he : e = .validation f .isRequired := Except.error.inj h
    rcases fetchInts_error_inv h5 with ⟨k2, hk2⟩ | ⟨k2, hk2⟩
    · have hc := he.symm.trans hk2
      simp at hc
    · have hc := he.symm.trans hk2
      simp at hc
  | ok tailVals =>
  rw [save_steps h1 h2 h3 h4 h5] at h
  cases h6 : notNullAll (notNullChecks (formatDateTime now) headVals pf aw dw
      tailVals) with
  | error e =>
    rw [h6, ebind_error] at h
    have he : e = .validation f .isRequired := Except.error.inj h
    obtain ⟨f2, s, he2, hm, hs⟩ := notNullAll_error_inv h6
    have hf2 : f = f2 :=
      (HandlerErr.validation.inj (he.symm.trans he2)).1
    rcases (by simpa [notNullChecks, List.mem_append, List.mem_cons] using hm :
      (f2, Value.str s) = ("date", Value.str (formatDateTime now)) ∨
      (f2, Value.str s) ∈ headIntFields.zip (headVals.map Value.int) ∨
      (f2, Value.str s) = ("preferred_foot", Value.str pf) ∨
      (f2, Value.str s) = ("attacking_work_rate", Value.str aw) ∨
      (f2, Value.str s) = ("defensive_work_rate", Value.str dw) ∨
      (f2, Value.str s) ∈ tailIntFields.zip (tailVals.map Value.int)) with
      hcase | hcase | hcase | hcase | hcase | hcase
    · have hsf : s = formatDateTime now := Value.str.inj (congrArg Prod.snd hcase)
      rw [hsf] at hs
      exact absurd hs (pyStrip_formatDateTime_ne_empty now)
    · obtain ⟨n, hn⟩ := snd_of_mem_zip_int hcase
      cases hn
    · exact Or.inl (hf2.trans (congrArg Prod.fst hcase))
    · exact Or.inr (Or.inl (hf2.trans (congrArg Prod.fst hcase)))
    · exact Or.inr (Or.inr (hf2.trans (congrArg Prod.fst hcase)))
    · obtain ⟨n, hn⟩ := snd_of_mem_zip_int hcase
      cases hn
  | ok u =>
  cases u
  rw [h6, ebind_ok, if_neg (formatDateTime_ne_empty now)] at h
  by_cases h7 : pf ∈ (["left", "right", "none"] : List String)
  · rw [if_pos h7] at h
    cases h
  · rw [if_neg h7] at h
    have he := Except.error.inj h
    simp at he

/-- Witness for C9: an empty `attacking_work_rate` yields the
"is required" error, and the theorem places the field among the three
raw text fields. -/
theorem spec_c9_witness :
    validate_not_null (.int 42) "stamina" = .ok () ∧
    ("attacking_work_rate" = "preferred_foot" ∨
     "attacking_work_rate" = "attacking_work_rate" ∨
     "attacking_work_rate" = "defensive_work_rate") :=
  ⟨spec_c9.1 42 "stamina",
   spec_c9.2.2 "p7" t0 (formWith "attacking_work_rate" " ") db0
     "attacking_work_rate" (by rfl)⟩
